import Mathlib

/-!
Verification of the vbo-parser core against its specification

This file gives a shallow embedding, in Lean 4, of the core of the
`tobi/vbo-parser` TypeScript repository: the VBO format parser and
normalizer (`src/parser.ts`), the lap detector (`src/lap-detection.ts`)
and the session synchronizer (`src/session-comparison.ts`), together
with theorems settling the behavioural claims made about them.

Modelling conventions:
* JavaScript numbers are modelled as `ℚ` wherever the code only performs
  field arithmetic and comparisons, and as `ℝ` in the two distance
  functions, which use trigonometry.  (IEEE-754 rounding, `NaN` and
  `Infinity` payloads are outside the model; where a `NaN` can be stored
  in a record the field is an `Option ℚ` with `none` for `NaN`.)
* JavaScript strings are `String`, but all string operations are
  re-implemented by structural recursion over the character list so that
  concrete runs of the parser reduce inside the kernel.
* Thrown exceptions are modelled with `Except`; per-row `try/catch`
  blocks around total code are dropped where the wrapped code cannot
  throw.
* `Array.prototype.sort` (stable since ES2019) is modelled with the
  stable `List.insertionSort`.
-/

namespace VBO

/-! ## Character-list string primitives (JS string operations) -/

/-- JS `String.prototype.trim` on a character list (leading and trailing
whitespace removed). -/
def trimChars (cs : List Char) : List Char :=
  ((cs.dropWhile Char.isWhitespace).reverse.dropWhile Char.isWhitespace).reverse

/-- JS `s.trim()`. -/
def jsTrim (s : String) : String := ⟨trimChars s.data⟩

/-- `p` is a leading segment of `s` (character-list version of JS
`String.prototype.startsWith`). -/
def isPreOf : List Char → List Char → Bool
  | [], _ => true
  | _ :: _, [] => false
  | p :: ps, c :: cs => p == c && isPreOf ps cs

/-- JS `s.startsWith(p)`. -/
def jsStartsWith (s p : String) : Bool := isPreOf p.data s.data

/-- JS `s.endsWith(p)`. -/
def jsEndsWith (s p : String) : Bool := isPreOf p.data.reverse s.data.reverse

/-- JS `s.substring(n)` / dropping the first `n` characters. -/
def jsDrop (s : String) (n : ℕ) : String := ⟨s.data.drop n⟩

/-- Dropping the last `n` characters (used for `replace(/\.vbo$/i, '')`). -/
def jsDropRight (s : String) (n : ℕ) : String := ⟨s.data.take (s.data.length - n)⟩

/-- JS `s.toLowerCase()` (ASCII letters only, as in `Char.toLower`). -/
def jsToLower (s : String) : String := ⟨s.data.map Char.toLower⟩

/-- Split a character list at every character satisfying `p`; `n+1`
pieces for `n` separators, as JS `split`. -/
def splitOnPred (p : Char → Bool) : List Char → List (List Char)
  | [] => [[]]
  | c :: cs =>
    let rest := splitOnPred p cs
    if p c then [] :: rest
    else match rest with
      | [] => [[c]]
      | r :: rs => (c :: r) :: rs

/-- Split a character list at every occurrence of the separator
character. -/
def splitOnChar (sep : Char) : List Char → List (List Char) :=
  splitOnPred (· == sep)

/-- JS `content.split(/\r?\n/)`: split on `'\n'` and strip one trailing
`'\r'` from each piece. -/
def splitLines (content : String) : List String :=
  (splitOnChar '\n' content.data).map fun l =>
    if l.getLast? == some '\r' then ⟨l.dropLast⟩ else ⟨l⟩

/-- JS `t.split(/\s+/)` for an already-trimmed string `t`: on the empty
string JS yields `[""]`, otherwise the whitespace-separated tokens. -/
def jsSplitWs (t : String) : List String :=
  if t = "" then [""]
  else ((splitOnPred Char.isWhitespace t.data).filter (· ≠ [])).map fun cs => ⟨cs⟩

/-- Remove the first `'+'` of a string (JS `s.replace(/\+/, '')`). -/
def removeFirstPlus : List Char → List Char
  | [] => []
  | c :: cs => if c == '+' then cs else c :: removeFirstPlus cs

/-- Split a string at the first occurrence of `sep`, if any
(used for JS `indexOf`/`substring`). -/
def breakAtFirst (sep : Char) : List Char → Option (List Char × List Char)
  | [] => none
  | c :: cs =>
    if c == sep then some ([], cs)
    else match breakAtFirst sep cs with
      | none => none
      | some (l, r) => some (c :: l, r)

/-! ## JS numeric primitives -/

/-- `Math.floor` on a rational, as a rational.  (`Rat.floor` is used
instead of `Int.floor` so that concrete runs reduce in the kernel;
`Rat.floor_def` identifies the two.) -/
def jsFloor (q : ℚ) : ℚ := (Rat.floor q : ℚ)

/-- JS truncation toward zero (the integral part used by `%`). -/
def jsTrunc (q : ℚ) : ℤ := if 0 ≤ q then Rat.floor q else -(Rat.floor (-q))

/-- The JS remainder operator `%` on numbers: `a - b * trunc (a / b)`. -/
def jsMod (a b : ℚ) : ℚ := a - b * (jsTrunc (a / b) : ℚ)

/-- JS `Math.round`: round half toward `+∞`, i.e. `⌊x + 1/2⌋`. -/
def jsRound (q : ℚ) : ℤ := Rat.floor (q + 1 / 2)

/-- Numeric value of a digit list (most significant first). -/
def digitsVal (ds : List Char) : ℕ :=
  ds.foldl (fun a c => 10 * a + (c.toNat - '0'.toNat)) 0

/-- Take the maximal run of leading decimal digits. -/
def readDigits : List Char → List Char × List Char
  | [] => ([], [])
  | c :: cs =>
    if c.isDigit then
      let (ds, rest) := readDigits cs
      (c :: ds, rest)
    else ([], c :: cs)

/-- The signed exponent suffix `e…`/`E…` of a JS float literal, `0` when
absent or incomplete (then `parseFloat` keeps only the mantissa). -/
def readExponent : List Char → ℤ
  | e :: rest =>
    if e == 'e' || e == 'E' then
      match rest with
      | '+' :: r2 => (digitsVal (readDigits r2).1 : ℤ)
      | '-' :: r2 => -(digitsVal (readDigits r2).1 : ℤ)
      | r2 => (digitsVal (readDigits r2).1 : ℤ)
    else 0
  | [] => 0

/-- JS `parseFloat`: skip leading whitespace, parse the longest prefix of
the form `[+-]?digits[.digits]?([eE][+-]?digits)?`, `none` (`NaN`) when no
digit is found.  (The special literals `Infinity`/`-Infinity`, which
`parseFloat` also accepts, have no rational value and are treated as
unparseable; no VBO token uses them.) -/
def jsParseFloat (s : String) : Option ℚ :=
  let cs := s.data.dropWhile Char.isWhitespace
  let (sign, cs1) : ℚ × List Char :=
    match cs with
    | '+' :: rest => (1, rest)
    | '-' :: rest => (-1, rest)
    | _ => (1, cs)
  let (ip, cs2) := readDigits cs1
  let (fp, cs3) :=
    match cs2 with
    | '.' :: rest => readDigits rest
    | _ => ([], cs2)
  if ip = [] ∧ fp = [] then none
  else
    let mant : ℚ := (digitsVal ip : ℚ) + (digitsVal fp : ℚ) / (10 : ℚ) ^ fp.length
    let e : ℤ := readExponent cs3
    some (sign * (if 0 ≤ e then mant * (10 : ℚ) ^ e.toNat else mant / (10 : ℚ) ^ (-e).toNat))

/-- JS `Math.atan2 y x` over the reals (the IEEE signed-zero distinctions
collapse; `atan2 0 0 = 0` as in JS). -/
noncomputable def atan2 (y x : ℝ) : ℝ :=
  if 0 < x then Real.arctan (y / x)
  else if x < 0 ∧ 0 ≤ y then Real.arctan (y / x) + Real.pi
  else if x < 0 ∧ y < 0 then Real.arctan (y / x) - Real.pi
  else if x = 0 ∧ 0 < y then Real.pi / 2
  else if x = 0 ∧ y < 0 then -(Real.pi / 2)
  else 0

/-! ## Data model (`src/types.ts`) -/

/-- One decoded telemetry sample (`VBODataPoint` in `types.ts`): a fixed
set of numeric fields, each defaulting to `0`. -/
structure VBODataPoint where
  satellites : ℚ
  time : ℚ
  latitude : ℚ
  longitude : ℚ
  velocity : ℚ
  heading : ℚ
  height : ℚ
  verticalVelocity : ℚ
  samplePeriod : ℚ
  solutionType : ℚ
  aviFileIndex : ℚ
  aviSyncTime : ℚ
  comboAcc : ℚ
  tcSlip : ℚ
  tcGain : ℚ
  ppsMap : ℚ
  epsMap : ℚ
  engMap : ℚ
  driverId : ℚ
  ambientTemperature : ℚ
  carOnJack : ℚ
  headrest : ℚ
  fuelProbe : ℚ
  tcActive : ℚ
  lapNumber : ℚ
  lapGainLoss : ℚ
  engineSpeed : ℚ
  steeringAngle : ℚ
  brakePressureFront : ℚ
  throttlePedal : ℚ
  vehicleSpeed : ℚ
  gear : ℚ
  comboG : ℚ
deriving DecidableEq

/-- The names of the `VBODataPoint` fields, used to resolve column names
(`keyof VBODataPoint` in TypeScript). -/
inductive FieldName
  | satellites | time | latitude | longitude | velocity | heading
  | height | verticalVelocity | samplePeriod | solutionType
  | aviFileIndex | aviSyncTime | comboAcc | tcSlip | tcGain
  | ppsMap | epsMap | engMap | driverId | ambientTemperature
  | carOnJack | headrest | fuelProbe | tcActive | lapNumber
  | lapGainLoss | engineSpeed | steeringAngle | brakePressureFront
  | throttlePedal | vehicleSpeed | gear | comboG
deriving DecidableEq

/-- The all-zero sample (`defaultDataPoint` in `createDataPoint`). -/
def defaultDataPoint : VBODataPoint :=
  ⟨0, 0, 0, 0, 0, 0, 0, 0, 0, 0, 0, 0, 0, 0, 0, 0, 0,
   0, 0, 0, 0, 0, 0, 0, 0, 0, 0, 0, 0, 0, 0, 0, 0⟩

/-- Assignment `dataPoint[field] = v`. -/
def setField (p : VBODataPoint) : FieldName → ℚ → VBODataPoint
  | .satellites, v => { p with satellites := v }
  | .time, v => { p with time := v }
  | .latitude, v => { p with latitude := v }
  | .longitude, v => { p with longitude := v }
  | .velocity, v => { p with velocity := v }
  | .heading, v => { p with heading := v }
  | .height, v => { p with height := v }
  | .verticalVelocity, v => { p with verticalVelocity := v }
  | .samplePeriod, v => { p with samplePeriod := v }
  | .solutionType, v => { p with solutionType := v }
  | .aviFileIndex, v => { p with aviFileIndex := v }
  | .aviSyncTime, v => { p with aviSyncTime := v }
  | .comboAcc, v => { p with comboAcc := v }
  | .tcSlip, v => { p with tcSlip := v }
  | .tcGain, v => { p with tcGain := v }
  | .ppsMap, v => { p with ppsMap := v }
  | .epsMap, v => { p with epsMap := v }
  | .engMap, v => { p with engMap := v }
  | .driverId, v => { p with driverId := v }
  | .ambientTemperature, v => { p with ambientTemperature := v }
  | .carOnJack, v => { p with carOnJack := v }
  | .headrest, v => { p with headrest := v }
  | .fuelProbe, v => { p with fuelProbe := v }
  | .tcActive, v => { p with tcActive := v }
  | .lapNumber, v => { p with lapNumber := v }
  | .lapGainLoss, v => { p with lapGainLoss := v }
  | .engineSpeed, v => { p with engineSpeed := v }
  | .steeringAngle, v => { p with steeringAngle := v }
  | .brakePressureFront, v => { p with brakePressureFront := v }
  | .throttlePedal, v => { p with throttlePedal := v }
  | .vehicleSpeed, v => { p with vehicleSpeed := v }
  | .gear, v => { p with gear := v }
  | .comboG, v => { p with comboG := v }

/-- The test `mappedName in defaultDataPoint`: a string names a
`VBODataPoint` field. -/
def fieldOfString : String → Option FieldName
  | "satellites" => some .satellites
  | "time" => some .time
  | "latitude" => some .latitude
  | "longitude" => some .longitude
  | "velocity" => some .velocity
  | "heading" => some .heading
  | "height" => some .height
  | "verticalVelocity" => some .verticalVelocity
  | "samplePeriod" => some .samplePeriod
  | "solutionType" => some .solutionType
  | "aviFileIndex" => some .aviFileIndex
  | "aviSyncTime" => some .aviSyncTime
  | "comboAcc" => some .comboAcc
  | "tcSlip" => some .tcSlip
  | "tcGain" => some .tcGain
  | "ppsMap" => some .ppsMap
  | "epsMap" => some .epsMap
  | "engMap" => some .engMap
  | "driverId" => some .driverId
  | "ambientTemperature" => some .ambientTemperature
  | "carOnJack" => some .carOnJack
  | "headrest" => some .headrest
  | "fuelProbe" => some .fuelProbe
  | "tcActive" => some .tcActive
  | "lapNumber" => some .lapNumber
  | "lapGainLoss" => some .lapGainLoss
  | "engineSpeed" => some .engineSpeed
  | "steeringAngle" => some .steeringAngle
  | "brakePressureFront" => some .brakePressureFront
  | "throttlePedal" => some .throttlePedal
  | "vehicleSpeed" => some .vehicleSpeed
  | "gear" => some .gear
  | "comboG" => some .comboG
  | _ => none

/-- One declared telemetry column (`VBOChannel`). -/
structure VBOChannel where
  name : String
  unit : String
  index : ℕ
deriving DecidableEq

/-- Parsed `[header]` information (`VBOHeader`).  The creation date is
kept as the raw matched text of the `File created on …` line (`none`
when absent/unmatched, where the source falls back to the current
time — diagnostic metadata only). -/
structure VBOHeader where
  creationDate : Option String
  channels : List VBOChannel
  units : List String
deriving DecidableEq

/-- A sector of a lap (`VBOSector`); the distances come from the
trigonometric distance function and live in `ℝ`. -/
structure VBOSector where
  sectorNumber : ℕ
  startTime : ℚ
  endTime : ℚ
  sectorTime : ℚ
  startDistance : ℝ
  endDistance : ℝ

/-- Lap labels (`'off-track' | 'in-lap' | 'out-lap' | 'timed-lap'`). -/
inductive LapLabel
  | offTrack | inLap | outLap | timedLap
deriving DecidableEq

/-- One detected lap (`VBOLap`). -/
structure VBOLap where
  lapNumber : ℚ
  startTime : ℚ
  endTime : ℚ
  lapTime : ℚ
  distance : ℝ
  sectors : List VBOSector
  dataPoints : List VBODataPoint
  isValid : Bool
  label : LapLabel

/-- A timing line from `[laptiming]` (`VBOTimingLine`); a coordinate is
`none` when `parseFloat` produced `NaN`. -/
structure VBOTimingLine where
  type : String
  startLatitude : Option ℚ
  startLongitude : Option ℚ
  endLatitude : Option ℚ
  endLongitude : Option ℚ
  name : String
deriving DecidableEq

/-- Circuit metadata (`VBOCircuitInfo`). -/
structure VBOCircuitInfo where
  country : Option String := none
  circuit : Option String := none
  timingLines : List VBOTimingLine := []
deriving DecidableEq

/-- A guessed companion video file (`VBOVideoFile`). -/
structure VBOVideoFile where
  filename : String
  index : ℕ
deriving DecidableEq

/-- A parsed session (`VBOSession`). -/
structure VBOSession where
  filePath : String
  header : VBOHeader
  dataPoints : List VBODataPoint
  laps : List VBOLap
  totalTime : ℚ
  trackLength : Option ℚ
  circuitInfo : VBOCircuitInfo
  videos : List VBOVideoFile

/-- Parser configuration (`VBOParserOptions`); `customColumnMappings`
maps column tokens to field names and overrides the built-in table. -/
structure VBOParserOptions where
  calculateLaps : Bool := true
  customColumnMappings : List (String × FieldName) := []
  validateDataPoints : Bool := false
  maxDataPoints : Option ℕ := none

/-- A parse failure (`VBOParseError`), carrying its message. -/
structure VBOParseError where
  message : String
deriving DecidableEq

namespace VBOParser

/-- `DEFAULT_COLUMN_NAMES_MAP`: the built-in column-token → field table. -/
def DEFAULT_COLUMN_NAMES_MAP : List (String × FieldName) :=
  [("sats", .satellites),
   ("satellites", .satellites),
   ("time", .time),
   ("lat", .latitude),
   ("latitude", .latitude),
   ("long", .longitude),
   ("longitude", .longitude),
   ("velocity", .velocity),
   ("velocity kmh", .velocity),
   ("heading", .heading),
   ("height", .height),
   ("vert-vel", .verticalVelocity),
   ("vertical velocity m/s", .verticalVelocity),
   ("Tsample", .samplePeriod),
   ("sampleperiod", .samplePeriod),
   ("solution_type", .solutionType),
   ("solution type", .solutionType),
   ("avifileindex", .aviFileIndex),
   ("avisynctime", .aviSyncTime),
   ("ComboAcc", .comboAcc),
   ("TC_Slip", .tcSlip),
   ("TC_Gain", .tcGain),
   ("PPS_Map", .ppsMap),
   ("EPS_Map", .epsMap),
   ("ENG_Map", .engMap),
   ("DriverID", .driverId),
   ("Ambient_Temperature", .ambientTemperature),
   ("Car_On_Jack", .carOnJack),
   ("Headrest", .headrest),
   ("Fuel_Probe", .fuelProbe),
   ("TC_Active", .tcActive),
   ("Lap_Number", .lapNumber),
   ("Lap_Gain_Loss", .lapGainLoss),
   ("Engine_Speed", .engineSpeed),
   ("Steering_Angle", .steeringAngle),
   ("Brake_Pressure_Front", .brakePressureFront),
   ("Throttle_Pedal", .throttlePedal),
   ("Vehicle_Speed", .vehicleSpeed),
   ("Gear", .gear),
   ("Combo_G", .comboG)]

/-- The merged mapping `{ ...DEFAULT_COLUMN_NAMES_MAP,
...customColumnMappings }` as a lookup function (custom wins). -/
def mergedMappings (custom : List (String × FieldName)) (s : String) : Option FieldName :=
  match custom.lookup s with
  | some f => some f
  | none => DEFAULT_COLUMN_NAMES_MAP.lookup s

/-- `parseVBOTime`: decode a `HHMMSS.mmm` time token to seconds since
midnight, falling back to the plain numeric value when the packed
components are out of range; `none` models `null`. -/
def parseVBOTime (timeString : String) : Option ℚ :=
  if timeString = "" ∨ timeString = "(null)" ∨ timeString = "null" then none
  else
    match jsParseFloat timeString with
    | none => none
    | some timeNum =>
      let hours := jsFloor (timeNum / 10000)
      let minutes := jsFloor (jsMod timeNum 10000 / 100)
      let seconds := jsMod timeNum 100
      if hours < 0 ∨ hours > 23 ∨ minutes < 0 ∨ minutes > 59 ∨ seconds < 0 ∨ seconds ≥ 60 then
        some timeNum
      else
        some (hours * 3600 + minutes * 60 + seconds)

/-- `parseNumericValue`: standard float parsing with null handling. -/
def parseNumericValue (value : String) : Option ℚ :=
  if value = "" ∨ value = "(null)" ∨ value = "null" then none
  else jsParseFloat value

/-- `createDataPoint`: decode one whitespace-split data row against the
column order `columnMapping` and the resolved token → field `mappings`;
unresolved columns and null/unparseable tokens leave the zero default. -/
def createDataPoint (values columnMapping : List String)
    (mappings : String → Option FieldName) : VBODataPoint :=
  (List.range (min values.length columnMapping.length)).foldl
    (fun dp i =>
      let columnName := columnMapping.getD i ""
      let field? :=
        match mappings columnName with
        | some f => some f
        | none => fieldOfString columnName
      match field? with
      | none => dp
      | some f =>
        let numericValue :=
          if f = FieldName.time then parseVBOTime (values.getD i "")
          else parseNumericValue (values.getD i "")
        match numericValue with
        | none => dp
        | some v => setField dp f v)
    defaultDataPoint

/-- `parseHeader`: locate `[header]` (mandatory) and `[channel units]`
(optional) and collect channels and units. -/
def parseHeader (lines : List String) : Except VBOParseError VBOHeader :=
  let creationDate : Option String :=
    match lines.find? (fun line => jsStartsWith line "File created on") with
    | none => none
    | some l =>
      -- the regex `File created on (.+)` needs at least one character
      -- after the space
      if jsStartsWith l "File created on " ∧ jsDrop l 16 ≠ "" then
        some (jsTrim (jsDrop l 16))
      else none
  match lines.findIdx? (fun line => jsTrim line = "[header]") with
  | none => Except.error ⟨"No [header] section found in VBO file"⟩
  | some headerStartIndex =>
    let channelNames :=
      ((lines.drop (headerStartIndex + 1)).map jsTrim).takeWhile
        (fun l => l ≠ "" ∧ ¬ (jsStartsWith l "[" = true))
    let channels := channelNames.enum.map
      (fun (i, name) => VBOChannel.mk name "" i)
    let units :=
      match lines.findIdx? (fun line => jsTrim line = "[channel units]") with
      | none => []
      | some unitsStartIndex =>
        ((lines.drop (unitsStartIndex + 1)).map jsTrim).takeWhile
          (fun l => l ≠ "" ∧ ¬ (jsStartsWith l "[" = true))
    -- units are assigned positionally to the first
    -- `min channels.length units.length` channels
    let channelsWithUnits := channels.map fun ch =>
      match units[ch.index]? with
      | some u => { ch with unit := u }
      | none => ch
    Except.ok ⟨creationDate, channelsWithUnits, units⟩

/-- The row scan of `parseDataSectionRaw`: walk the lines after `[data]`,
skipping blank and bracketed lines, decoding every other line, and
stopping once `maxDataPoints` rows have been decoded. -/
def parseDataRows (columnMapping : List String) (mappings : String → Option FieldName)
    (maxDataPoints : Option ℕ) : List String → ℕ → List VBODataPoint
  | [], _ => []
  | rawLine :: rest, processedCount =>
    let line := jsTrim rawLine
    if line = "" ∨ jsStartsWith line "[" then
      parseDataRows columnMapping mappings maxDataPoints rest processedCount
    else if (match maxDataPoints with
        | some m => decide (m ≤ processedCount)
        | none => false) then
      []
    else
      let values := jsSplitWs line
      if values = [] then
        parseDataRows columnMapping mappings maxDataPoints rest processedCount
      else
        createDataPoint values columnMapping mappings ::
          parseDataRows columnMapping mappings maxDataPoints rest (processedCount + 1)

/-- `parseDataSectionRaw`: find `[data]` (mandatory) and the column order
(the line after `[column names]` when it precedes `[data]`, else the
header channel names) and decode the rows.  `createDataPoint` is total,
so the per-row `try/catch` of the source never fires. -/
def parseDataSectionRaw (lines : List String) (header : VBOHeader)
    (options : VBOParserOptions) : Except VBOParseError (List VBODataPoint) :=
  match lines.findIdx? (fun line => jsTrim line = "[data]") with
  | none => Except.error ⟨"No [data] section found in VBO file"⟩
  | some dataStartIndex =>
    let columnMapping0 : List String :=
      match lines.findIdx? (fun line => jsTrim line = "[column names]") with
      | some columnNamesIndex =>
        if columnNamesIndex < dataStartIndex then
          match lines[columnNamesIndex + 1]? with
          | some columnLine =>
            if columnLine ≠ "" then jsSplitWs (jsTrim columnLine) else []
          | none => []
        else []
      | none => []
    let columnMapping :=
      if columnMapping0.length = 0 then header.channels.map (·.name)
      else columnMapping0
    let allColumnMappings := mergedMappings options.customColumnMappings
    Except.ok
      (parseDataRows columnMapping allColumnMappings options.maxDataPoints
        (lines.drop (dataStartIndex + 1)) 0)

/-- The four results of `detectCoordinateSystem`. -/
inductive CoordSystem
  | gps | nmea | vbox_minutes | local
deriving DecidableEq

/-- `detectCoordinateSystem`: classify the coordinate encoding from (up
to) the first 100 samples with both coordinates non-zero.  (The unused
`latRange`/`lonRange` computations of the source are omitted.) -/
def detectCoordinateSystem (dataPoints : List VBODataPoint) : CoordSystem :=
  let nonZeroPoints := dataPoints.filter fun p =>
    p.latitude ≠ 0 ∧ p.longitude ≠ 0
  if nonZeroPoints.isEmpty then .gps
  else
    let sample := nonZeroPoints.take (min 100 nonZeroPoints.length)
    let hasLargeValues := sample.any fun p =>
      |p.latitude| > 1000 ∨ |p.longitude| > 1000
    if hasLargeValues then .local
    else
      let couldBeVboxMinutes := sample.any fun p =>
        let latDegrees := |p.latitude| / 60
        let lonDegrees := |p.longitude| / 60
        latDegrees ≥ 0 ∧ latDegrees ≤ 90 ∧ lonDegrees ≥ 0 ∧ lonDegrees ≤ 180 ∧
          (|p.latitude| > 100 ∨ |p.longitude| > 100) ∧
          (|p.latitude| < 1000 ∧ |p.longitude| < 1000)
      if couldBeVboxMinutes then .vbox_minutes
      else
        let couldBeNmea := sample.any fun p =>
          let latDegrees := jsFloor (|p.latitude| / 100)
          let latMinutes := |p.latitude| - latDegrees * 100
          let lonDegrees := jsFloor (|p.longitude| / 100)
          let lonMinutes := |p.longitude| - lonDegrees * 100
          latDegrees ≤ 90 ∧ latMinutes < 60 ∧ lonDegrees ≤ 180 ∧ lonMinutes < 60 ∧
            (|p.latitude| > 1000 ∨ |p.longitude| > 1000)
        if couldBeNmea then .nmea
        else .gps

/-- `nmeaToDecimal`: convert `DDMM.MMMMM` to decimal degrees. -/
def nmeaToDecimal (nmeaCoord : ℚ) : ℚ :=
  if nmeaCoord = 0 then 0
  else
    let degrees := jsFloor (|nmeaCoord| / 100)
    let minutes := jsMod |nmeaCoord| 100
    let decimal := degrees + minutes / 60
    if nmeaCoord < 0 then -decimal else decimal

/-- `vboxMinutesToDecimal`: convert total minutes to decimal degrees. -/
def vboxMinutesToDecimal (totalMinutes : ℚ) : ℚ :=
  let sign : ℚ := if totalMinutes ≥ 0 then 1 else -1
  |totalMinutes| / 60 * sign

/-- `convertCoordinate`: dispatch on the detected type (identity for the
non-converting classifications). -/
def convertCoordinate (coordinate : ℚ) : CoordSystem → ℚ
  | .nmea => nmeaToDecimal coordinate
  | .vbox_minutes => vboxMinutesToDecimal coordinate
  | _ => coordinate

/-- `normalizeDataPoints`: rebase every time to the minimum time and
convert coordinates when the detected system requires it (zero
coordinates pass through).  The source folds the minimum starting from
`Infinity`; over a non-empty list this equals folding from the head's
time. -/
def normalizeDataPoints (dataPoints : List VBODataPoint) : List VBODataPoint :=
  match dataPoints with
  | [] => []
  | p0 :: rest =>
    let minTime := rest.foldl (fun acc p => if p.time < acc then p.time else acc) p0.time
    let coordinateType := detectCoordinateSystem (p0 :: rest)
    let needsConversion :=
      coordinateType = CoordSystem.nmea ∨ coordinateType = CoordSystem.vbox_minutes
    (p0 :: rest).map fun point =>
      { point with
        time := point.time - minTime
        latitude :=
          if needsConversion ∧ point.latitude ≠ 0 then
            convertCoordinate point.latitude coordinateType
          else point.latitude
        longitude :=
          if needsConversion ∧ point.longitude ≠ 0 then
            convertCoordinate point.longitude coordinateType
          else point.longitude }

/-- `parseTimingLine`: decode one `[laptiming]` row
(`Start/Split +Long1 +Lat1 +Long2 +Lat2 ¬ Name`). -/
def parseTimingLine (line : String) : Option VBOTimingLine :=
  let parts := (splitOnPred Char.isWhitespace line.data).filter (·.length > 0)
  if parts.length < 6 then none
  else
    match parts with
    | ty :: p1 :: p2 :: p3 :: p4 :: _ =>
      let type : String := ⟨ty⟩
      if type ≠ "Start" ∧ type ≠ "Split" then none
      else
        let long1 := jsParseFloat ⟨removeFirstPlus p1⟩
        let lat1 := jsParseFloat ⟨removeFirstPlus p2⟩
        let long2 := jsParseFloat ⟨removeFirstPlus p3⟩
        let lat2 := jsParseFloat ⟨removeFirstPlus p4⟩
        let name :=
          match breakAtFirst '¬' line.data with
          | some (_, after) => jsTrim ⟨after⟩
          | none => type ++ " Line"
        some ⟨type, lat1, long1, lat2, long2, name⟩
    | _ => none

/-- The `[laptiming]`/`[circuit details]` state machine of
`parseCircuitInfo`. -/
def circuitInfoLoop : List String → Bool → Bool → VBOCircuitInfo → VBOCircuitInfo
  | [], _, _, info => info
  | line :: rest, inLapTiming, inCircuitDetails, info =>
    let trimmed := jsTrim line
    if trimmed = "[laptiming]" then circuitInfoLoop rest true false info
    else if trimmed = "[circuit details]" then circuitInfoLoop rest false true info
    else if jsStartsWith trimmed "[" ∧ jsEndsWith trimmed "]" then
      circuitInfoLoop rest false false info
    else
      let info1 :=
        if inLapTiming ∧ trimmed ≠ "" then
          match parseTimingLine trimmed with
          | some timingLine => { info with timingLines := info.timingLines ++ [timingLine] }
          | none => info
        else info
      let info2 :=
        if inCircuitDetails ∧ trimmed ≠ "" then
          if jsStartsWith trimmed "country " then { info1 with country := some (jsDrop trimmed 8) }
          else if jsStartsWith trimmed "circuit " then { info1 with circuit := some (jsDrop trimmed 8) }
          else info1
        else info1
      circuitInfoLoop rest inLapTiming inCircuitDetails info2

/-- `parseCircuitInfo`: scan the whole input for circuit metadata. -/
def parseCircuitInfo (lines : List String) : VBOCircuitInfo :=
  circuitInfoLoop lines false false ⟨none, none, []⟩

/-- Left-pad a numeral with zeroes to four characters
(JS `padStart(4, '0')`). -/
def pad4 (n : ℕ) : String :=
  let s := toString n
  if s.length ≥ 4 then s else ⟨List.replicate (4 - s.data.length) '0' ++ s.data⟩

/-- `findVideoFiles`: guess up to ten companion `.mp4` names from the
`.vbo` path. -/
def findVideoFiles (vboPath : String) : List VBOVideoFile :=
  if jsEndsWith (jsToLower vboPath) ".vbo" then
    let baseName := jsDropRight vboPath 4
    (List.range 10).filterMap fun i =>
      let idx := i + 1
      let videoFilename : String :=
        ⟨((splitOnChar '/' (baseName ++ "_" ++ pad4 idx ++ ".mp4").data).getLastD [])⟩
      if videoFilename ≠ "" then
        some ⟨"/videos/" ++ videoFilename, idx⟩
      else none
  else []

/-- `parseVBOContent` on the already-split lines: header, raw rows,
pre-normalization total time, normalization, circuit info. -/
def parseVBOContentLines (lines : List String) (filePath : String)
    (options : VBOParserOptions) : Except VBOParseError VBOSession :=
  if lines.isEmpty then Except.error ⟨"VBO file is empty"⟩
  else
    match parseHeader lines with
    | Except.error e => Except.error e
    | Except.ok header =>
      match parseDataSectionRaw lines header options with
      | Except.error e => Except.error e
      | Except.ok rawDataPoints =>
        if rawDataPoints.isEmpty &&
            (match options.maxDataPoints with
             | none => true
             | some m => decide (0 < m)) then
          Except.error ⟨"No data points found in VBO file"⟩
        else
          let totalTime := rawDataPoints.foldl
            (fun acc p => if p.time > acc then p.time else acc) 0
          let dataPoints := normalizeDataPoints rawDataPoints
          let circuitInfo := parseCircuitInfo lines
          Except.ok
            { filePath := filePath
              header := header
              dataPoints := dataPoints
              laps := []
              totalTime := totalTime
              trackLength := none
              circuitInfo := circuitInfo
              videos := findVideoFiles filePath }

/-- `parseVBOContent` proper: split the raw text on `\r?\n` first. -/
def parseVBOContent (content : String) (filePath : String)
    (options : VBOParserOptions) : Except VBOParseError VBOSession :=
  parseVBOContentLines (splitLines content) filePath options

/-- `VBOParser.calculateDistance` (the static parser helper): the
Haversine great-circle distance with Earth radius 6 371 000 m,
unconditionally. -/
noncomputable def calculateDistance (lat1 lng1 lat2 lng2 : ℝ) : ℝ :=
  let R : ℝ := 6371e3
  let phi1 := lat1 * Real.pi / 180
  let phi2 := lat2 * Real.pi / 180
  let dphi := (lat2 - lat1) * Real.pi / 180
  let dlambda := (lng2 - lng1) * Real.pi / 180
  let a := Real.sin (dphi / 2) * Real.sin (dphi / 2) +
    Real.cos phi1 * Real.cos phi2 * Real.sin (dlambda / 2) * Real.sin (dlambda / 2)
  let c := 2 * atan2 (Real.sqrt a) (Real.sqrt (1 - a))
  R * c

end VBOParser

/-! ## Lap detection (`src/lap-detection.ts`) -/

/-- `LapDetectionOptions`, with the defaults of `DEFAULT_OPTIONS` already
merged in. -/
structure LapDetectionOptions where
  minDistance : ℚ := 1000
  speedThreshold : ℚ := 20
  sectorCount : ℕ := 3

namespace LapDetection

/-- `LapDetection.calculateDistance` (the private lap-detector helper):
planar Euclidean distance when some coordinate magnitude exceeds 200 or
exceeds 180 (so effectively 180), otherwise the Haversine great-circle
distance with Earth radius 6 371 000 m. -/
noncomputable def calculateDistance (lat1 lng1 lat2 lng2 : ℝ) : ℝ :=
  let coords := [lat1, lng1, lat2, lng2]
  let hasLargeValues := ∃ c ∈ coords, |c| > 200
  let outsideGPSRange := ∃ c ∈ coords, |c| > 180
  open Classical in
  if hasLargeValues ∨ outsideGPSRange then
    let dx := lat2 - lat1
    let dy := lng2 - lng1
    Real.sqrt (dx * dx + dy * dy)
  else
    let R : ℝ := 6371e3
    let phi1 := lat1 * Real.pi / 180
    let phi2 := lat2 * Real.pi / 180
    let dphi := (lat2 - lat1) * Real.pi / 180
    let dlambda := (lng2 - lng1) * Real.pi / 180
    let a := Real.sin (dphi / 2) * Real.sin (dphi / 2) +
      Real.cos phi1 * Real.cos phi2 * Real.sin (dlambda / 2) * Real.sin (dlambda / 2)
    let c := 2 * atan2 (Real.sqrt a) (Real.sqrt (1 - a))
    R * c

/-- Distance between two samples' coordinates (the call sites cast the
parsed rationals into `ℝ`). -/
noncomputable def pointDistance (p q : VBODataPoint) : ℝ :=
  calculateDistance (p.latitude : ℝ) (p.longitude : ℝ) (q.latitude : ℝ) (q.longitude : ℝ)

/-- The accumulated point-to-point distance of a lap (the
`distance += this.calculateDistance(...)` loops). -/
noncomputable def lapDistance (points : List VBODataPoint) : ℝ :=
  (points.zip points.tail).foldl (fun acc pq => acc + pointDistance pq.1 pq.2) 0

/-- The cumulative-distance array of `generateSectors`: `distances[0] = 0`
and `distances[i] = distances[i-1] + d(points[i-1], points[i])`. -/
noncomputable def cumAux (prev : VBODataPoint) (acc : ℝ) : List VBODataPoint → List ℝ
  | [] => []
  | p :: ps =>
    let acc' := acc + pointDistance prev p
    acc' :: cumAux p acc' ps

/-- Cumulative distances, one entry per sample. -/
noncomputable def cumulativeDistances : List VBODataPoint → List ℝ
  | [] => [0]
  | p :: ps => 0 :: cumAux p 0 ps

/-- The sector-building loop of `generateSectors`: `fuel` counts the
remaining iterations (`sectorCount - sector`); an out-of-range start
index breaks the loop. -/
noncomputable def buildSectors (points : List VBODataPoint) (distances : List ℝ)
    (sectorCount pointsPerSector : ℕ) : ℕ → ℕ → List VBOSector
  | 0, _ => []
  | fuel + 1, sector =>
    let startIndex := sector * pointsPerSector
    let endIndex :=
      if sector = sectorCount - 1 then points.length - 1
      else (sector + 1) * pointsPerSector - 1
    if startIndex ≥ points.length ∨ startIndex > endIndex then []
    else
      match points[startIndex]?, points[endIndex]? with
      | some startPoint, some endPoint =>
        ⟨sector + 1, startPoint.time, endPoint.time, endPoint.time - startPoint.time,
          distances.getD startIndex 0, distances.getD endIndex 0⟩ ::
          buildSectors points distances sectorCount pointsPerSector fuel (sector + 1)
      | _, _ => buildSectors points distances sectorCount pointsPerSector fuel (sector + 1)

/-- `generateSectors`: divide a lap's samples into `sectorCount`
contiguous chunks (the last absorbs the remainder). -/
noncomputable def generateSectors (points : List VBODataPoint) (sectorCount : ℕ) :
    List VBOSector :=
  if points.isEmpty ∨ sectorCount = 0 then []
  else
    let pointsPerSector := max 1 (points.length / sectorCount)
    buildSectors points (cumulativeDistances points) sectorCount pointsPerSector sectorCount 0

/-- Insert a sample into the lap-number groups: append to the existing
group for this lap number, else open a new group at the end (the
insertion-ordered `Map` of `detectFromLapNumbers`). -/
def addToGroups (groups : List (ℚ × List VBODataPoint)) (n : ℚ) (p : VBODataPoint) :
    List (ℚ × List VBODataPoint) :=
  match groups with
  | [] => [(n, [p])]
  | (m, g) :: rest =>
    if m = n then (m, g ++ [p]) :: rest
    else (m, g) :: addToGroups rest n p

/-- The grouping pass of `detectFromLapNumbers`. -/
def groupsLoop : List VBODataPoint → List (ℚ × List VBODataPoint) →
    List (ℚ × List VBODataPoint)
  | [], acc => acc
  | p :: ps, acc =>
    groupsLoop ps (if 0 < p.lapNumber then addToGroups acc p.lapNumber p else acc)

/-- Group the samples carrying a positive lap number, in insertion
order. -/
def groupByLapNumber (dataPoints : List VBODataPoint) : List (ℚ × List VBODataPoint) :=
  groupsLoop dataPoints []

/-- `let startTime = Infinity; if (point.time < startTime) …` over a
group, in `WithTop ℚ`. -/
def foldMinTime (points : List VBODataPoint) : WithTop ℚ :=
  points.foldl (fun acc p => if (p.time : WithTop ℚ) < acc then (p.time : WithTop ℚ) else acc) ⊤

/-- `let endTime = -Infinity; if (point.time > endTime) …` over a group,
in `WithBot ℚ`. -/
def foldMaxTime (points : List VBODataPoint) : WithBot ℚ :=
  points.foldl (fun acc p => if acc < (p.time : WithBot ℚ) then (p.time : WithBot ℚ) else acc) ⊥

/-- The ascending-`startTime` comparator of the final
`laps.sort((a, b) => a.startTime - b.startTime)`. -/
def lapLE (a b : VBOLap) : Prop := a.startTime ≤ b.startTime

instance : DecidableRel lapLE :=
  fun a b => inferInstanceAs (Decidable (a.startTime ≤ b.startTime))

/-- `detectFromLapNumbers`: group by lap number, build one always-valid
lap per group with the group's min/max time, and sort by start time
(`Array.prototype.sort` is stable, modelled by the stable
`insertionSort`).  A group is never empty, so the two
`continue` guards (`points.length === 0`, `startTime === Infinity ||
endTime === -Infinity`) are the `none` branches below. -/
noncomputable def detectFromLapNumbers (dataPoints : List VBODataPoint)
    (options : LapDetectionOptions) : List VBOLap :=
  let lapGroups := groupByLapNumber dataPoints
  let laps := lapGroups.filterMap fun g =>
    let lapNumber := g.1
    let points := g.2
    if points.isEmpty then none
    else
      match foldMinTime points, foldMaxTime points with
      | some startTime, some endTime =>
        let lapTime := endTime - startTime
        let distance := lapDistance points
        let sectors := generateSectors points options.sectorCount
        some ⟨lapNumber, startTime, endTime, lapTime, distance, sectors, points, true,
          LapLabel.timedLap⟩
      | _, _ => none
  laps.insertionSort lapLE

/-- `detectFromGPS`: the geometric fallback — slice the stream into
`⌊totalTime / 120⌋` equal chunks and keep those whose accumulated
distance reaches `minDistance`. -/
noncomputable def detectFromGPS (dataPoints : List VBODataPoint)
    (options : LapDetectionOptions) : List VBOLap :=
  if dataPoints.length < 100 then []
  else
    let totalTime :=
      (dataPoints.getLastD defaultDataPoint).time - (dataPoints.headD defaultDataPoint).time
    let estimatedLapCount : ℕ := (max 1 (Rat.floor (totalTime / 120))).toNat
    if estimatedLapCount < 1 then []
    else
      let pointsPerLap := dataPoints.length / estimatedLapCount
      (List.range estimatedLapCount).filterMap fun i =>
        let startIndex := i * pointsPerLap
        let endIndex :=
          if i = estimatedLapCount - 1 then dataPoints.length - 1
          else (i + 1) * pointsPerLap
        let lapPoints := (dataPoints.drop startIndex).take (endIndex + 1 - startIndex)
        let startTime := (lapPoints.headD defaultDataPoint).time
        let endTime := (lapPoints.getLastD defaultDataPoint).time
        let lapTime := endTime - startTime
        let distance := lapDistance lapPoints
        open Classical in
        if distance ≥ (options.minDistance : ℝ) then
          some ⟨(i : ℚ) + 1, startTime, endTime, lapTime, distance,
            generateSectors lapPoints options.sectorCount, lapPoints, true,
            LapLabel.timedLap⟩
        else none

/-- `detectLaps`: authoritative lap numbers when any sample carries one,
otherwise the geometric fallback. -/
noncomputable def detectLaps (dataPoints : List VBODataPoint)
    (options : LapDetectionOptions) : List VBOLap :=
  if dataPoints.isEmpty then []
  else
    let pointsWithLapNumbers := dataPoints.filter fun p => 0 < p.lapNumber
    if pointsWithLapNumbers.length > 0 then detectFromLapNumbers dataPoints options
    else detectFromGPS dataPoints options

end LapDetection

/-! ## Session comparison (`src/session-comparison.ts`)

State is kept per session; the TypeScript `Map<VBOSession, SessionState>`
keyed by object identity becomes one state for the main session plus a
list of states parallel to `comparatorSessions` (the `session` field of
`SessionState`, which duplicates the map key, is dropped). -/

/-- A normalized position in a session (`NormalizedPosition`). -/
structure NormalizedPosition where
  lapNumber : ℚ
  lapProgress : ℚ
  sessionProgress : ℚ
  dataPointIndex : ℕ
  dataPoint : VBODataPoint
  normalizedProgress : ℚ
deriving DecidableEq

/-- Navigation state of one session (`SessionState`). -/
structure SessionState where
  currentLapIndex : ℕ
  currentDataPointIndex : ℕ
  position : NormalizedPosition
deriving DecidableEq

/-- Constructor options (`SessionComparisonOptions`): optional fields,
defaulted to `false` and `0.01` at construction. -/
structure SessionComparisonOptions where
  allowDifferentTracks : Option Bool := none
  progressTolerance : Option ℚ := none

/-- The errors thrown by `SessionComparison`, carrying the data of the
corresponding `Error` message. -/
inductive CompError
  /-- "Session ⟨filePath⟩ has no laps and cannot be compared" -/
  | noLaps (filePath : String)
  /-- "Lap ⟨lapNumber⟩ in session ⟨filePath⟩ has no data points" -/
  | emptyLap (lapNumber : ℚ) (filePath : String)
  /-- "Cannot compare sessions from different tracks: ⟨main⟩ vs ⟨other⟩…" -/
  | trackMismatch (mainCircuit circuit : String)
  /-- "Invalid lap index: ⟨i⟩" -/
  | invalidLapIndex (lapIndex : ℕ)
  /-- "Invalid data point index: ⟨i⟩" -/
  | invalidDataPointIndex (dataPointIndex : ℕ)
  /-- "Invalid lap calculation" -/
  | invalidLapCalculation
  /-- "Lap ⟨n⟩ not found in main session" -/
  | lapNotFound (lapNumber : ℚ)
  /-- "Progress must be between 0 and 1" -/
  | progressOutOfRange
deriving DecidableEq

/-- A fully constructed comparison (`SessionComparison`), with the
options already resolved. -/
structure SessionComparison where
  mainSession : VBOSession
  comparatorSessions : List VBOSession
  allowDifferentTracks : Bool
  progressTolerance : ℚ
  mainState : SessionState
  compStates : List SessionState

namespace SessionComparison

/-- JS truthiness of `session.circuitInfo?.circuit`: present and
non-empty. -/
def circuitKnown : Option String → Bool
  | none => false
  | some s => s ≠ ""

/-- The per-lap half of `validateSessions`: the first lap without
samples fails. -/
def checkLaps (filePath : String) : List VBOLap → Except CompError Unit
  | [] => Except.ok ()
  | lap :: rest =>
    if lap.dataPoints.isEmpty then Except.error (CompError.emptyLap lap.lapNumber filePath)
    else checkLaps filePath rest

/-- One session of the lap-presence check. -/
def checkSession (s : VBOSession) : Except CompError Unit :=
  if s.laps.isEmpty then Except.error (CompError.noLaps s.filePath)
  else checkLaps s.filePath s.laps

/-- All sessions (main first, then the comparators), in order. -/
def checkAllSessions : List VBOSession → Except CompError Unit
  | [] => Except.ok ()
  | s :: rest =>
    match checkSession s with
    | Except.error e => Except.error e
    | Except.ok _ => checkAllSessions rest

/-- The track-compatibility check: a comparator fails when both circuit
names are truthy and differ. -/
def checkTracks (mainCircuit : Option String) : List VBOSession → Except CompError Unit
  | [] => Except.ok ()
  | s :: rest =>
    let circuit := s.circuitInfo.circuit
    if circuitKnown mainCircuit ∧ circuitKnown circuit ∧ mainCircuit ≠ circuit then
      Except.error (CompError.trackMismatch (mainCircuit.getD "") (circuit.getD ""))
    else checkTracks mainCircuit rest

/-- `validateSessions`. -/
def validateSessions (mainSession : VBOSession) (comparatorSessions : List VBOSession)
    (allowDifferentTracks : Bool) : Except CompError Unit :=
  match checkAllSessions (mainSession :: comparatorSessions) with
  | Except.error e => Except.error e
  | Except.ok _ =>
    if allowDifferentTracks then Except.ok ()
    else checkTracks mainSession.circuitInfo.circuit comparatorSessions

/-- `calculateNormalizedPosition`: the two index checks are the `throw`s
of the source. -/
def calculateNormalizedPosition (session : VBOSession) (lapIndex dataPointIndex : ℕ) :
    Except CompError NormalizedPosition :=
  match session.laps[lapIndex]? with
  | none => Except.error (CompError.invalidLapIndex lapIndex)
  | some lap =>
    match lap.dataPoints[dataPointIndex]? with
    | none => Except.error (CompError.invalidDataPointIndex dataPointIndex)
    | some dataPoint =>
      let lapProgress : ℚ :=
        if lap.dataPoints.length > 1 then
          (dataPointIndex : ℚ) / ((lap.dataPoints.length : ℚ) - 1)
        else 0
      let totalLaps := session.laps.length
      let completedLaps := lapIndex
      let sessionProgress : ℚ :=
        if totalLaps > 0 then ((completedLaps : ℚ) + lapProgress) / (totalLaps : ℚ)
        else 0
      let normalizedProgress := sessionProgress
      Except.ok ⟨lap.lapNumber, lapProgress, sessionProgress, dataPointIndex, dataPoint,
        normalizedProgress⟩

/-- The `normalizedProgress` value computed by
`calculateNormalizedPosition` for lap `lapIndex` of `totalLaps` with
`lapLen` samples, at sample `dataPointIndex`. -/
def progressFormula (totalLaps lapIndex lapLen dataPointIndex : ℕ) : ℚ :=
  let lapProgress : ℚ :=
    if lapLen > 1 then (dataPointIndex : ℚ) / ((lapLen : ℚ) - 1) else 0
  if totalLaps > 0 then ((lapIndex : ℚ) + lapProgress) / (totalLaps : ℚ) else 0

/-- The `(lapIndex, pointIndex, normalizedProgress)` triples visited by
the double loop of `findClosestProgressPoint`, in scan order. -/
def progressPairs (session : VBOSession) : List (ℕ × ℕ × ℚ) :=
  session.laps.enum.flatMap fun li_lap =>
    (List.range li_lap.2.dataPoints.length).map fun pointIndex =>
      (li_lap.1, pointIndex,
        progressFormula session.laps.length li_lap.1 li_lap.2.dataPoints.length pointIndex)

/-- The scan of `findClosestProgressPoint`: running best
`(lapIndex, pointIndex, bestDifference)` with `bestDifference` starting
at `Infinity` (`⊤`); `Sum.inl` is the early `return` on a near-exact
match. -/
def findLoop (targetProgress : ℚ) : List (ℕ × ℕ × ℚ) → ℕ × ℕ × WithTop ℚ →
    (ℕ × ℕ) ⊕ (ℕ × ℕ × WithTop ℚ)
  | [], best => Sum.inr best
  | (lapIndex, pointIndex, pr) :: rest, (bestLap, bestPoint, bestDifference) =>
    let difference := |pr - targetProgress|
    let best' :=
      if (difference : WithTop ℚ) < bestDifference then
        (lapIndex, pointIndex, (difference : WithTop ℚ))
      else (bestLap, bestPoint, bestDifference)
    if difference < 1 / 10000 then Sum.inl (best'.1, best'.2.1)
    else findLoop targetProgress rest best'

/-- `findClosestProgressPoint`: both the within-tolerance return and the
"no good match" fallback deliver the same best pair, so the tolerance
test decides nothing. -/
def findClosestProgressPoint (session : VBOSession) (targetProgress : ℚ)
    (progressTolerance : ℚ) : Option (ℕ × ℕ) :=
  match findLoop targetProgress (progressPairs session) (0, 0, ⊤) with
  | Sum.inl p => some p
  | Sum.inr (bestLap, bestPoint, bestDifference) =>
    if bestDifference ≤ (progressTolerance : WithTop ℚ) then some (bestLap, bestPoint)
    else some (bestLap, bestPoint)

/-- Re-position one comparator onto the main target progress
(the body of the `syncComparatorsToMain` loop; the state is left
untouched when no closest point is returned). -/
def syncOne (targetProgress progressTolerance : ℚ) (session : VBOSession)
    (old : SessionState) : Except CompError SessionState :=
  match findClosestProgressPoint session targetProgress progressTolerance with
  | none => Except.ok old
  | some (lapIndex, dataPointIndex) =>
    match calculateNormalizedPosition session lapIndex dataPointIndex with
    | Except.error e => Except.error e
    | Except.ok position => Except.ok ⟨lapIndex, dataPointIndex, position⟩

/-- Fold `syncOne` over the comparators and their states. -/
def syncStates (targetProgress progressTolerance : ℚ) :
    List (VBOSession × SessionState) → Except CompError (List SessionState)
  | [] => Except.ok []
  | (s, old) :: rest =>
    match syncOne targetProgress progressTolerance s old with
    | Except.error e => Except.error e
    | Except.ok st =>
      match syncStates targetProgress progressTolerance rest with
      | Except.error e => Except.error e
      | Except.ok sts => Except.ok (st :: sts)

/-- `syncComparatorsToMain`. -/
def syncComparatorsToMain (c : SessionComparison) : Except CompError SessionComparison :=
  match syncStates c.mainState.position.normalizedProgress c.progressTolerance
      (c.comparatorSessions.zip c.compStates) with
  | Except.error e => Except.error e
  | Except.ok sts => Except.ok { c with compStates := sts }

/-- `setMainPosition`: bounds checks, state update, then comparator
synchronization.  (The `< 0` halves of the checks are vacuous over
`ℕ`.) -/
def setMainPosition (c : SessionComparison) (lapIndex dataPointIndex : ℕ) :
    Except CompError SessionComparison :=
  if lapIndex ≥ c.mainSession.laps.length then
    Except.error (CompError.invalidLapIndex lapIndex)
  else
    match c.mainSession.laps[lapIndex]? with
    | none => Except.error (CompError.invalidLapIndex lapIndex)
    | some lap =>
      if dataPointIndex ≥ lap.dataPoints.length then
        Except.error (CompError.invalidDataPointIndex dataPointIndex)
      else
        match calculateNormalizedPosition c.mainSession lapIndex dataPointIndex with
        | Except.error e => Except.error e
        | Except.ok position =>
          syncComparatorsToMain
            { c with mainState := ⟨lapIndex, dataPointIndex, position⟩ }

/-- The stepping loop of `advanceMain`: step forward `steps` samples,
crossing lap boundaries, clamping (and breaking) at the last sample of
the last lap. -/
def advanceLoop (laps : List VBOLap) : ℕ → ℕ × ℕ → ℕ × ℕ
  | 0, st => st
  | n + 1, (lapIndex, dataPointIndex) =>
    match laps[lapIndex]? with
    | none => (lapIndex, dataPointIndex)
    | some lap =>
      let dataPointIndex' := dataPointIndex + 1
      if dataPointIndex' ≥ lap.dataPoints.length then
        let lapIndex' := lapIndex + 1
        if lapIndex' ≥ laps.length then
          let lastIndex := laps.length - 1
          match laps[lastIndex]? with
          | some lastLap => (lastIndex, lastLap.dataPoints.length - 1)
          | none => (lastIndex, dataPointIndex')
        else advanceLoop laps n (lapIndex', 0)
      else advanceLoop laps n (lapIndex, dataPointIndex')

/-- `advanceMain`. -/
def advanceMain (c : SessionComparison) (steps : ℕ) : Except CompError SessionComparison :=
  let st := advanceLoop c.mainSession.laps steps
    (c.mainState.currentLapIndex, c.mainState.currentDataPointIndex)
  setMainPosition c st.1 st.2

/-- `getMainProgress`. -/
def getMainProgress (c : SessionComparison) : ℚ :=
  c.mainState.position.normalizedProgress

/-- `setMainProgress`: range check, the exact `progress === 1` shortcut
to the last sample of the last lap, and otherwise linear scaling with
`Math.floor`/`Math.round`. -/
def setMainProgress (c : SessionComparison) (progress : ℚ) :
    Except CompError SessionComparison :=
  if progress < 0 ∨ progress > 1 then Except.error CompError.progressOutOfRange
  else
    let totalLaps := c.mainSession.laps.length
    if progress = 1 then
      let lastLapIndex := totalLaps - 1
      match c.mainSession.laps[lastLapIndex]? with
      | none => Except.error CompError.invalidLapCalculation
      | some lastLap => setMainPosition c lastLapIndex (lastLap.dataPoints.length - 1)
    else
      let lapPosition := progress * (totalLaps : ℚ)
      -- 0 ≤ progress < 1 here, so `Math.floor lapPosition` is the
      -- non-negative `(Rat.floor lapPosition).toNat`
      let lapIndex := (Rat.floor lapPosition).toNat
      let lapProgress := lapPosition - (lapIndex : ℚ)
      match c.mainSession.laps[lapIndex]? with
      | none => Except.error CompError.invalidLapCalculation
      | some lap =>
        let dataPointIndex := (jsRound (lapProgress * ((lap.dataPoints.length : ℚ) - 1))).toNat
        setMainPosition c lapIndex dataPointIndex

/-- `initializeStates`: every tracked session starts at lap 0, sample
0. -/
def initializeStates (mainSession : VBOSession) (comparatorSessions : List VBOSession) :
    Except CompError (SessionState × List SessionState) :=
  match calculateNormalizedPosition mainSession 0 0 with
  | Except.error e => Except.error e
  | Except.ok mainPosition =>
    match comparatorSessions.mapM (fun s =>
        (calculateNormalizedPosition s 0 0).map fun p => SessionState.mk 0 0 p) with
    | Except.error e => Except.error e
    | Except.ok compStates => Except.ok (⟨0, 0, mainPosition⟩, compStates)

/-- The `SessionComparison` constructor: resolve the options, validate,
then initialize all states. -/
def construct (mainSession : VBOSession) (comparatorSessions : List VBOSession)
    (options : SessionComparisonOptions) : Except CompError SessionComparison :=
  let allowDifferentTracks := options.allowDifferentTracks.getD false
  let progressTolerance := options.progressTolerance.getD (1 / 100)
  match validateSessions mainSession comparatorSessions allowDifferentTracks with
  | Except.error e => Except.error e
  | Except.ok _ =>
    match initializeStates mainSession comparatorSessions with
    | Except.error e => Except.error e
    | Except.ok (mainState, compStates) =>
      Except.ok ⟨mainSession, comparatorSessions, allowDifferentTracks, progressTolerance,
        mainState, compStates⟩

end SessionComparison

/-! ## Spec-side definitions and auxiliary notions used by the claims -/

namespace VBOParser

/-- A line the data-row scan decodes: non-blank and non-bracketed after
trimming. -/
def isDataRowLine (l : String) : Bool :=
  !(jsTrim l == "") && !(jsStartsWith (jsTrim l) "[")

/-- The number of non-blank, non-bracketed lines following the first
`[data]` marker, to the end of the input (the lines the row scan
decodes). -/
def dataSectionLineCount (lines : List String) : ℕ :=
  match lines.findIdx? (fun line => jsTrim line = "[data]") with
  | none => 0
  | some i => ((lines.drop (i + 1)).filter isDataRowLine).length

/-- Decoding one good line of the row scan. -/
def decodeLine (columnMapping : List String) (mappings : String → Option FieldName)
    (l : String) : VBODataPoint :=
  createDataPoint (jsSplitWs (jsTrim l)) columnMapping mappings

/-- The coordinate classifier as worded by the claim/spec, with the
per-*value* conditions (each sampled latitude is checked against the
90° bound and each sampled longitude against the 180° bound,
independently of the point's other coordinate).  To be compared with
`detectCoordinateSystem`. -/
def specCoordinateClassifier (dataPoints : List VBODataPoint) : CoordSystem :=
  let nonZeroPoints := dataPoints.filter fun p => p.latitude ≠ 0 ∧ p.longitude ≠ 0
  if nonZeroPoints.isEmpty then .gps
  else
    let sample := nonZeroPoints.take (min 100 nonZeroPoints.length)
    -- each sampled value paired with its valid degree bound
    let sampledValues : List (ℚ × ℚ) :=
      sample.flatMap fun p => [(p.latitude, 90), (p.longitude, 180)]
    if sampledValues.any (fun v => |v.1| > 1000) then .local
    else if sampledValues.any (fun v =>
        100 < |v.1| ∧ |v.1| < 1000 ∧ 0 ≤ |v.1| / 60 ∧ |v.1| / 60 ≤ v.2) then .vbox_minutes
    else if sampledValues.any (fun v =>
        jsFloor (|v.1| / 100) ≤ v.2 ∧ |v.1| - jsFloor (|v.1| / 100) * 100 < 60 ∧
          |v.1| > 1000) then .nmea
    else .gps

/-- The corrected priority-order description of
`detectCoordinateSystem`: per-*point* conditions, with the degree-bound
checks (implied by `< 1000`) elided and the unreachable NMEA
classification dropped. -/
def detectCoordinateSystemSpec (dataPoints : List VBODataPoint) : CoordSystem :=
  let nonZeroPoints := dataPoints.filter fun p => p.latitude ≠ 0 ∧ p.longitude ≠ 0
  if nonZeroPoints.isEmpty then .gps
  else
    let sample := nonZeroPoints.take (min 100 nonZeroPoints.length)
    if sample.any (fun p => |p.latitude| > 1000 ∨ |p.longitude| > 1000) then .local
    else if sample.any (fun p =>
        (|p.latitude| > 100 ∨ |p.longitude| > 100) ∧
          |p.latitude| < 1000 ∧ |p.longitude| < 1000) then .vbox_minutes
    else .gps

/-- `convertCoordinate` with the (unreachable) NMEA case removed. -/
def convertCoordinateNoNmea (coordinate : ℚ) : CoordSystem → ℚ
  | .vbox_minutes => vboxMinutesToDecimal coordinate
  | _ => coordinate

/-- `normalizeDataPoints` with the NMEA conversion removed: used to
state that normalization never applies the degrees+minutes
conversion. -/
def normalizeDataPointsNoNmea (dataPoints : List VBODataPoint) : List VBODataPoint :=
  match dataPoints with
  | [] => []
  | p0 :: rest =>
    let minTime := rest.foldl (fun acc p => if p.time < acc then p.time else acc) p0.time
    let coordinateType := detectCoordinateSystem (p0 :: rest)
    let needsConversion := coordinateType = CoordSystem.vbox_minutes
    (p0 :: rest).map fun point =>
      { point with
        time := point.time - minTime
        latitude :=
          if needsConversion ∧ point.latitude ≠ 0 then
            convertCoordinateNoNmea point.latitude coordinateType
          else point.latitude
        longitude :=
          if needsConversion ∧ point.longitude ≠ 0 then
            convertCoordinateNoNmea point.longitude coordinateType
          else point.longitude }

end VBOParser

namespace LapDetection

/-- The samples of lap `n`: those carrying a positive lap number equal
to `n`, in stream order. -/
def lapGroupOf (dataPoints : List VBODataPoint) (n : ℚ) : List VBODataPoint :=
  dataPoints.filter fun p => 0 < p.lapNumber ∧ p.lapNumber = n

end LapDetection

namespace SessionComparison

/-- A validation error names a session of the list that genuinely
violates the lap/sample requirements. -/
def ErrNamesOffender (e : CompError) (sessions : List VBOSession) : Prop :=
  match e with
  | CompError.noLaps fp => ∃ s ∈ sessions, s.filePath = fp ∧ s.laps = []
  | CompError.emptyLap n fp =>
    ∃ s ∈ sessions, s.filePath = fp ∧ ∃ lap ∈ s.laps, lap.lapNumber = n ∧ lap.dataPoints = []
  | _ => False

/-- A session that passes construction validation: at least one lap,
every lap with at least one sample. -/
def SessionValid (s : VBOSession) : Prop :=
  s.laps ≠ [] ∧ ∀ lap ∈ s.laps, lap.dataPoints ≠ []

/-- The stored state is the one `calculateNormalizedPosition` computes
for its indices (this also forces the indices in range). -/
def StateValid (s : VBOSession) (st : SessionState) : Prop :=
  calculateNormalizedPosition s st.currentLapIndex st.currentDataPointIndex =
    Except.ok st.position

/-- The invariant a constructed `SessionComparison` keeps between
navigation calls. -/
def Valid (c : SessionComparison) : Prop :=
  SessionValid c.mainSession ∧ (∀ cs ∈ c.comparatorSessions, SessionValid cs) ∧
    StateValid c.mainSession c.mainState

/-- `(lapIndex, dataPointIndex)` addresses an existing sample of `s`. -/
def ValidIdx (s : VBOSession) (lapIndex dataPointIndex : ℕ) : Prop :=
  ∃ lap, s.laps[lapIndex]? = some lap ∧ dataPointIndex < lap.dataPoints.length

end SessionComparison

/-! ### Concrete fixtures used by counterexamples and witnesses -/

/-- A sample whose only non-zero fields are `time` and `lapNumber`. -/
def mkTimedPoint (time lapNumber : ℚ) : VBODataPoint :=
  { defaultDataPoint with time := time, lapNumber := lapNumber }

/-- A sample at latitude 1000, longitude 150: the classifiers disagree
here (the latitude blocks the per-point VBOX-minutes condition). -/
def c3Point : VBODataPoint :=
  { defaultDataPoint with latitude := 1000, longitude := 150 }

/-- A minimal input whose second data row carries the smaller time: the
first decoded sample's normalized time is 2, not 0. -/
def c1Input : String := "[header]\nsatellites\ntime\n[data]\n1 5\n1 3"

/-- The ten samples of the lap-grouping test: lap numbers
`[1,1,1,1,1,2,2,2,2,2]`, times `[0,10,…,90]`. -/
def c4Points : List VBODataPoint :=
  [mkTimedPoint 0 1, mkTimedPoint 10 1, mkTimedPoint 20 1, mkTimedPoint 30 1,
   mkTimedPoint 40 1, mkTimedPoint 50 2, mkTimedPoint 60 2, mkTimedPoint 70 2,
   mkTimedPoint 80 2, mkTimedPoint 90 2]

/-- A one-lap object over the given samples (distances/sectors empty,
as produced for hand-built test sessions). -/
def mkLap (lapNumber : ℚ) (startTime endTime : ℚ) (points : List VBODataPoint) : VBOLap :=
  ⟨lapNumber, startTime, endTime, endTime - startTime, 0, [], points, true, LapLabel.timedLap⟩

/-- A hand-built session with the given laps and circuit name. -/
def mkSession (filePath : String) (laps : List VBOLap) (circuit : Option String) : VBOSession :=
  ⟨filePath, ⟨none, [], []⟩, laps.flatMap (·.dataPoints), laps, 0, none,
    ⟨none, circuit, []⟩, []⟩

/-- A two-lap session used by the synchronizer witnesses: lap 1 has
samples at times 0 and 10, lap 2 at times 20, 30 and 40. -/
def wSession : VBOSession :=
  mkSession "main.vbo"
    [mkLap 1 0 10 [mkTimedPoint 0 1, mkTimedPoint 10 1],
     mkLap 2 20 40 [mkTimedPoint 20 2, mkTimedPoint 30 2, mkTimedPoint 40 2]]
    (some "Spa")

/-- A session with no laps (construction must fail). -/
def noLapsSession : VBOSession := mkSession "empty.vbo" [] (some "Spa")

/-- A valid session on a different circuit (track-mismatch fixture). -/
def otherTrackSession : VBOSession :=
  mkSession "other.vbo" [mkLap 1 0 10 [mkTimedPoint 0 1, mkTimedPoint 10 1]] (some "Monza")

/-- The comparison the `C7` witness starts from: `wSession` alone,
positioned at lap 0, sample 0. -/
def wComparison : SessionComparison :=
  ⟨wSession, [], false, 1 / 100,
    ⟨0, 0, ⟨1, 0, 0, 0, mkTimedPoint 0 1, 0⟩⟩, []⟩

/-! ## Lemmas -/

namespace VBOParser

lemma detect_ne_nmea (dataPoints : List VBODataPoint) :
    detectCoordinateSystem dataPoints ≠ CoordSystem.nmea := by
  unfold detectCoordinateSystem
  dsimp only
  split_ifs with h0 h1 h2 h3
  · simp
  · simp
  · simp
  · exfalso
    simp only [List.any_eq_true, decide_eq_true_eq] at h1 h3
    push_neg at h1
    obtain ⟨p, hp, hcond⟩ := h3
    rcases hcond.2.2.2.2 with hlat | hlon
    · exact absurd hlat (not_lt.mpr (h1 p hp).1)
    · exact absurd hlon (not_lt.mpr (h1 p hp).2)
  · simp

lemma normalize_eq_noNmea (dataPoints : List VBODataPoint) :
    normalizeDataPoints dataPoints = normalizeDataPointsNoNmea dataPoints := by
  cases dataPoints with
  | nil => rfl
  | cons p0 rest =>
    unfold normalizeDataPoints normalizeDataPointsNoNmea
    dsimp only
    rcases hct : detectCoordinateSystem (p0 :: rest) with _ | _ | _ | _
    · simp [convertCoordinate, convertCoordinateNoNmea]
    · exact absurd hct (detect_ne_nmea _)
    · simp [convertCoordinate, convertCoordinateNoNmea]
    · simp [convertCoordinate, convertCoordinateNoNmea]

end VBOParser

/-! ## Claim theorems -/

/-- C10: the NMEA classification is unreachable: `detectCoordinateSystem`
never returns `nmea` (its NMEA condition needs a sampled magnitude above
1000, which the earlier local-planar branch already catches), so
normalization coincides with its NMEA-free variant: `parse` never
applies the degrees+minutes conversion to any coordinate. -/
theorem claim10_nmea_unreachable (dataPoints : List VBODataPoint) :
    VBOParser.detectCoordinateSystem dataPoints ≠ VBOParser.CoordSystem.nmea ∧
      VBOParser.normalizeDataPoints dataPoints =
        VBOParser.normalizeDataPointsNoNmea dataPoints :=
  ⟨VBOParser.detect_ne_nmea dataPoints, VBOParser.normalize_eq_noNmea dataPoints⟩

/-- C3 (counterexample): at the single sample `(latitude 1000,
longitude 150)` the spec's per-value classifier says VBOX total-minutes
(150 lies in (100, 1000) and 150/60 is within the 180° bound), but the
code returns decimal degrees, because the point's latitude of 1000
fails the strict `< 1000` of the per-point condition. -/
theorem claim3_counterexample :
    VBOParser.detectCoordinateSystem [c3Point] = VBOParser.CoordSystem.gps ∧
      VBOParser.specCoordinateClassifier [c3Point] = VBOParser.CoordSystem.vbox_minutes ∧
      VBOParser.detectCoordinateSystem [c3Point] ≠
        VBOParser.specCoordinateClassifier [c3Point] := by
  refine ⟨?_, ?_, ?_⟩ <;> with_unfolding_all decide

/-- C3 (amended): over up to the first 100 samples with non-zero
coordinates, `detectCoordinateSystem` equals the priority-order
classifier with per-point conditions: local planar when some sampled
point has a coordinate of magnitude above 1000; else VBOX total-minutes
when some sampled point has a coordinate of magnitude above 100 while
both its coordinates have magnitude strictly below 1000 (the degree
bounds `|v|/60 ≤ 90`/`≤ 180` are implied); otherwise decimal degrees —
the NMEA arm is unreachable. -/
theorem claim3_amended (dataPoints : List VBODataPoint) :
    VBOParser.detectCoordinateSystem dataPoints =
      VBOParser.detectCoordinateSystemSpec dataPoints := by
  unfold VBOParser.detectCoordinateSystem VBOParser.detectCoordinateSystemSpec
  dsimp only
  set nz := List.filter (fun p => decide (p.latitude ≠ 0 ∧ p.longitude ≠ 0)) dataPoints with hnz
  set sample := List.take (100 ⊓ nz.length) nz with hsample
  by_cases h0 : nz.isEmpty = true
  · rw [if_pos h0, if_pos h0]
  rw [if_neg h0, if_neg h0]
  by_cases h1 : (sample.any fun p => decide (|p.latitude| > 1000 ∨ |p.longitude| > 1000)) = true
  · rw [if_pos h1, if_pos h1]
  rw [if_neg h1, if_neg h1]
  have hvbox :
      (sample.any fun p =>
        decide (|p.latitude| / 60 ≥ 0 ∧ |p.latitude| / 60 ≤ 90 ∧ |p.longitude| / 60 ≥ 0 ∧
          |p.longitude| / 60 ≤ 180 ∧ (|p.latitude| > 100 ∨ |p.longitude| > 100) ∧
          |p.latitude| < 1000 ∧ |p.longitude| < 1000)) =
      (sample.any fun p =>
        decide ((|p.latitude| > 100 ∨ |p.longitude| > 100) ∧
          |p.latitude| < 1000 ∧ |p.longitude| < 1000)) := by
    refine Bool.eq_iff_iff.mpr ?_
    simp only [List.any_eq_true, decide_eq_true_eq]
    constructor
    · rintro ⟨p, hp, hc⟩
      exact ⟨p, hp, hc.2.2.2.2.1, hc.2.2.2.2.2⟩
    · rintro ⟨p, hp, hor, hlat, hlon⟩
      refine ⟨p, hp, by positivity, ?_, by positivity, ?_, hor, hlat, hlon⟩
      · nlinarith [abs_nonneg p.latitude]
      · nlinarith [abs_nonneg p.longitude]
  rw [hvbox]
  by_cases h2 : (sample.any fun p =>
      decide ((|p.latitude| > 100 ∨ |p.longitude| > 100) ∧
        |p.latitude| < 1000 ∧ |p.longitude| < 1000)) = true
  · rw [if_pos h2, if_pos h2]
  rw [if_neg h2, if_neg h2]
  have hnmea : (sample.any fun p =>
      decide (jsFloor (|p.latitude| / 100) ≤ 90 ∧
        |p.latitude| - jsFloor (|p.latitude| / 100) * 100 < 60 ∧
        jsFloor (|p.longitude| / 100) ≤ 180 ∧
        |p.longitude| - jsFloor (|p.longitude| / 100) * 100 < 60 ∧
        (|p.latitude| > 1000 ∨ |p.longitude| > 1000))) = false := by
    simp only [List.any_eq_false, decide_eq_true_eq]
    intro p hp hc
    simp only [List.any_eq_true, decide_eq_true_eq] at h1
    push_neg at h1
    rcases hc.2.2.2.2 with hl | hl
    · exact absurd hl (not_lt.mpr (h1 p hp).1)
    · exact absurd hl (not_lt.mpr (h1 p hp).2)
  rw [hnmea]
  rfl

/-- C2 (counterexample): the two distance functions disagree at
`(0,0) → (360,0)`: the lap detector takes the planar branch and returns
360, whereas the parser's `calculateDistance` has no planar mode and
its Haversine value at a 360° latitude shift is 0. -/
theorem claim2_counterexample :
    LapDetection.calculateDistance 0 0 360 0 = 360 ∧
      VBOParser.calculateDistance 0 0 360 0 = 0 ∧
      LapDetection.calculateDistance 0 0 360 0 ≠ VBOParser.calculateDistance 0 0 360 0 := by
  have hlap : LapDetection.calculateDistance 0 0 360 0 = 360 := by
    unfold LapDetection.calculateDistance
    dsimp only
    rw [if_pos]
    · have h1 : ((360 : ℝ) - 0) * (360 - 0) + (0 - 0) * (0 - 0) = 360 ^ 2 := by norm_num
      rw [h1, Real.sqrt_sq (by norm_num : (0:ℝ) ≤ 360)]
    · exact Or.inl ⟨360, by norm_num, by norm_num⟩
  have hpar : VBOParser.calculateDistance 0 0 360 0 = 0 := by
    unfold VBOParser.calculateDistance
    dsimp only
    have hdphi : ((360 : ℝ) - 0) * Real.pi / 180 / 2 = Real.pi := by ring
    have hdl : ((0 : ℝ) - 0) * Real.pi / 180 / 2 = 0 := by ring
    rw [hdphi, hdl, Real.sin_pi, Real.sin_zero]
    have ha : (0 : ℝ) * 0 + Real.cos (0 * Real.pi / 180) * Real.cos (360 * Real.pi / 180) * 0 * 0 = 0 := by
      ring
    rw [ha, Real.sqrt_zero]
    have h10 : (1 : ℝ) - 0 = 1 := by norm_num
    rw [h10, Real.sqrt_one]
    have hat : atan2 0 1 = 0 := by
      unfold atan2
      rw [if_pos (by norm_num : (0:ℝ) < 1)]
      norm_num
    rw [hat]
    ring
  exact ⟨hlap, hpar, by rw [hlap, hpar]; norm_num⟩

/-- C2 (amended): `VBOParser.calculateDistance` is unconditionally the
Haversine distance (Earth radius 6 371 000 m);
`LapDetection.calculateDistance` is planar Euclidean exactly when some
coordinate magnitude exceeds 180 (the `> 200` check is subsumed by the
`> 180` check) and the same Haversine distance otherwise; hence the two
agree whenever every coordinate magnitude is at most 180. -/
theorem claim2_amended (lat1 lng1 lat2 lng2 : ℝ) :
    (|lat1| ≤ 180 → |lng1| ≤ 180 → |lat2| ≤ 180 → |lng2| ≤ 180 →
      LapDetection.calculateDistance lat1 lng1 lat2 lng2 =
        VBOParser.calculateDistance lat1 lng1 lat2 lng2) ∧
    (|lat1| > 180 ∨ |lng1| > 180 ∨ |lat2| > 180 ∨ |lng2| > 180 →
      LapDetection.calculateDistance lat1 lng1 lat2 lng2 =
        Real.sqrt ((lat2 - lat1) * (lat2 - lat1) + (lng2 - lng1) * (lng2 - lng1))) := by
  constructor
  · intro h1 h2 h3 h4
    unfold LapDetection.calculateDistance VBOParser.calculateDistance
    dsimp only
    rw [if_neg]
    rintro (⟨c, hc, hgt⟩ | ⟨c, hc, hgt⟩) <;>
      simp only [List.mem_cons, List.not_mem_nil, or_false] at hc <;>
      rcases hc with rfl | rfl | rfl | rfl <;> linarith
  · intro hor
    unfold LapDetection.calculateDistance
    dsimp only
    rw [if_pos]
    refine Or.inr ?_
    rcases hor with h | h | h | h
    · exact ⟨lat1, by simp, h⟩
    · exact ⟨lng1, by simp, h⟩
    · exact ⟨lat2, by simp, h⟩
    · exact ⟨lng2, by simp, h⟩

/-- Witness for `claim2_amended`: at the all-zero input both functions
agree (both take the Haversine branch), and at `(360,0) → (0,0)` the lap
detector's distance is the planar one. -/
theorem claim2_witness :
    LapDetection.calculateDistance 0 0 0 0 = VBOParser.calculateDistance 0 0 0 0 ∧
      LapDetection.calculateDistance 360 0 0 0 =
        Real.sqrt (((0:ℝ) - 360) * (0 - 360) + (0 - 0) * (0 - 0)) :=
  ⟨(claim2_amended 0 0 0 0).1 (by norm_num) (by norm_num) (by norm_num) (by norm_num),
   (claim2_amended 360 0 0 0).2 (Or.inl (by norm_num))⟩

end VBO

namespace VBO
namespace VBOParser

lemma trimChars_head_not_ws (cs : List Char) :
    trimChars cs = [] ∨ ∃ d t, trimChars cs = d :: t ∧ d.isWhitespace = false := by
  unfold trimChars
  rcases h1 : cs.dropWhile Char.isWhitespace with _ | ⟨d, t⟩
  · left; simp
  · have hd : d.isWhitespace = false := by
      have h0 : 0 < (cs.dropWhile Char.isWhitespace).length := by rw [h1]; simp
      have := List.dropWhile_get_zero_not Char.isWhitespace cs h0
      have hget : (cs.dropWhile Char.isWhitespace).get ⟨0, h0⟩ = d := by
        simp [h1]
      rw [hget] at this
      simpa using this
    right
    rw [List.reverse_cons]
    rw [List.dropWhile_append]
    by_cases he : (List.dropWhile Char.isWhitespace t.reverse).isEmpty
    · rw [if_pos he]
      refine ⟨d, [], ?_, hd⟩
      simp [List.dropWhile, hd]
    · rw [if_neg he]
      exact ⟨d, (List.dropWhile Char.isWhitespace t.reverse).reverse, by simp, hd⟩

lemma jsSplitWs_trim_ne_nil (l : String) (h : jsTrim l ≠ "") :
    jsSplitWs (jsTrim l) ≠ [] := by
  unfold jsSplitWs
  rw [if_neg h]
  have hd : ∃ d t, (jsTrim l).data = d :: t ∧ d.isWhitespace = false := by
    rcases trimChars_head_not_ws l.data with h0 | ⟨d, t, h1, h2⟩
    · exact absurd (show jsTrim l = "" by unfold jsTrim; rw [h0]) h
    · exact ⟨d, t, by unfold jsTrim; rw [h1], h2⟩
  obtain ⟨d, t, h1, h2⟩ := hd
  rw [h1]
  cases h3 : splitOnPred Char.isWhitespace t with
  | nil => simp [splitOnPred, h2, h3]
  | cons r rs => simp [splitOnPred, h2, h3]



lemma isDataRowLine_false_iff {l : String} :
    isDataRowLine l = false ↔ (jsTrim l = "" ∨ jsStartsWith (jsTrim l) "[" = true) := by
  unfold isDataRowLine
  cases h1 : (jsTrim l == "") <;> cases h2 : jsStartsWith (jsTrim l) "[" <;>
    simp_all [beq_iff_eq]

lemma parseDataRows_none_eq (cm : List String) (mp : String → Option FieldName) :
    ∀ (rest : List String) (k : ℕ),
      parseDataRows cm mp none rest k =
        (rest.filter isDataRowLine).map (decodeLine cm mp) := by
  intro rest
  induction rest with
  | nil => intro k; rfl
  | cons line tail ih =>
    intro k
    by_cases hb : jsTrim line = "" ∨ jsStartsWith (jsTrim line) "[" = true
    · have hf : isDataRowLine line = false := isDataRowLine_false_iff.mpr hb
      rw [parseDataRows, if_pos hb, List.filter_cons, hf]
      simpa using ih k
    · have ht : isDataRowLine line = true := by
        cases h : isDataRowLine line
        · exact absurd (isDataRowLine_false_iff.mp h) hb
        · rfl
      push_neg at hb
      have hne : jsSplitWs (jsTrim line) ≠ [] := jsSplitWs_trim_ne_nil line hb.1
      rw [parseDataRows, if_neg (by push_neg; exact hb), List.filter_cons, ht]
      simp only [ite_true]
      rw [if_neg hne]
      simp [decodeLine, ih]

lemma parseDataRows_some_eq (cm : List String) (mp : String → Option FieldName) (m : ℕ) :
    ∀ (rest : List String) (k : ℕ),
      parseDataRows cm mp (some m) rest k =
        ((rest.filter isDataRowLine).map (decodeLine cm mp)).take (m - k) := by
  intro rest
  induction rest with
  | nil => intro k; simp [parseDataRows]
  | cons line tail ih =>
    intro k
    by_cases hb : jsTrim line = "" ∨ jsStartsWith (jsTrim line) "[" = true
    · have hf : isDataRowLine line = false := isDataRowLine_false_iff.mpr hb
      rw [parseDataRows, if_pos hb, List.filter_cons, hf]
      simpa using ih k
    · have ht : isDataRowLine line = true := by
        cases h : isDataRowLine line
        · exact absurd (isDataRowLine_false_iff.mp h) hb
        · rfl
      push_neg at hb
      have hne : jsSplitWs (jsTrim line) ≠ [] := jsSplitWs_trim_ne_nil line hb.1
      rw [parseDataRows, if_neg (by push_neg; exact hb), List.filter_cons, ht]
      simp only [ite_true]
      by_cases hk : m ≤ k
      · rw [if_pos (by simpa using hk)]
        have : m - k = 0 := Nat.sub_eq_zero_of_le hk
        rw [this]
        simp
      · rw [if_neg (by simpa using hk)]
        rw [if_neg hne]
        have hmk : m - k = (m - (k + 1)) + 1 := by omega
        rw [hmk]
        simp [decodeLine, ih]


/-- The running-minimum fold of `normalizeDataPoints`: its result is
either the seed or an attained time, and bounds everything below. -/
lemma foldl_min_time (l : List VBODataPoint) :
    ∀ a : ℚ,
      (l.foldl (fun acc p => if p.time < acc then p.time else acc) a = a ∨
        ∃ p ∈ l, l.foldl (fun acc p => if p.time < acc then p.time else acc) a = p.time) ∧
      l.foldl (fun acc p => if p.time < acc then p.time else acc) a ≤ a ∧
      ∀ p ∈ l, l.foldl (fun acc p => if p.time < acc then p.time else acc) a ≤ p.time := by
  induction l with
  | nil => intro a; exact ⟨Or.inl rfl, le_refl a, by simp⟩
  | cons q l ih =>
    intro a
    have step : List.foldl (fun acc p => if p.time < acc then p.time else acc) a (q :: l) =
        List.foldl (fun acc p => if p.time < acc then p.time else acc)
          (if q.time < a then q.time else a) l := rfl
    obtain ⟨hat, hle, hall⟩ := ih (if q.time < a then q.time else a)
    have hsle : (if q.time < a then q.time else a) ≤ a := by
      split_ifs with hq
      · exact le_of_lt hq
      · exact le_refl a
    have hsq : (if q.time < a then q.time else a) ≤ q.time := by
      split_ifs with hq
      · exact le_refl _
      · exact le_of_not_lt hq
    refine ⟨?_, ?_, ?_⟩
    · rw [step]
      rcases hat with h | ⟨p, hp, hpe⟩
      · rw [h]
        split_ifs with hq
        · exact Or.inr ⟨q, List.mem_cons_self q l, rfl⟩
        · exact Or.inl rfl
      · exact Or.inr ⟨p, List.mem_cons_of_mem q hp, hpe⟩
    · rw [step]; exact le_trans hle hsle
    · intro p hp
      rw [step]
      rcases List.mem_cons.mp hp with rfl | hpl
      · exact le_trans hle hsq
      · exact hall p hpl

lemma normalizeDataPoints_length (dataPoints : List VBODataPoint) :
    (normalizeDataPoints dataPoints).length = dataPoints.length := by
  cases dataPoints with
  | nil => rfl
  | cons p0 rest => simp [normalizeDataPoints]

/-- The minimum time across the normalized samples is exactly 0. -/
lemma normalizeDataPoints_min_time (dataPoints : List VBODataPoint)
    (h : dataPoints ≠ []) :
    ∃ p ∈ normalizeDataPoints dataPoints, p.time = 0 ∧
      ∀ q ∈ normalizeDataPoints dataPoints, 0 ≤ q.time := by
  cases dataPoints with
  | nil => exact absurd rfl h
  | cons p0 rest =>
    obtain ⟨hat, hle, hall⟩ := foldl_min_time rest p0.time
    set minTime := rest.foldl (fun acc p => if p.time < acc then p.time else acc) p0.time
      with hmt
    have hattain : ∃ q ∈ p0 :: rest, q.time = minTime := by
      rcases hat with h1 | ⟨p, hp, hpe⟩
      · exact ⟨p0, List.mem_cons_self p0 rest, h1.symm⟩
      · exact ⟨p, List.mem_cons_of_mem p0 hp, hpe.symm⟩
    have hbound : ∀ q ∈ p0 :: rest, minTime ≤ q.time := by
      intro q hq
      rcases List.mem_cons.mp hq with rfl | hql
      · exact hle
      · exact hall q hql
    obtain ⟨q, hq, hqe⟩ := hattain
    rw [show normalizeDataPoints (p0 :: rest) = (p0 :: rest).map (fun point =>
        { point with
          time := point.time - minTime
          latitude :=
            if (detectCoordinateSystem (p0 :: rest) = CoordSystem.nmea ∨
                  detectCoordinateSystem (p0 :: rest) = CoordSystem.vbox_minutes) ∧
                point.latitude ≠ 0 then
              convertCoordinate point.latitude (detectCoordinateSystem (p0 :: rest))
            else point.latitude
          longitude :=
            if (detectCoordinateSystem (p0 :: rest) = CoordSystem.nmea ∨
                  detectCoordinateSystem (p0 :: rest) = CoordSystem.vbox_minutes) ∧
                point.longitude ≠ 0 then
              convertCoordinate point.longitude (detectCoordinateSystem (p0 :: rest))
            else point.longitude }) from rfl]
    refine ⟨_, List.mem_map_of_mem _ hq, ?_, ?_⟩
    · simp only
      rw [hqe]; ring
    · intro q' hq'
      obtain ⟨r, hr, rfl⟩ := List.mem_map.mp hq'
      simp only
      have := hbound r hr
      linarith


lemma parseDataSectionRaw_ok {lines : List String} {header : VBOHeader}
    {options : VBOParserOptions} {rows : List VBODataPoint}
    (h : parseDataSectionRaw lines header options = Except.ok rows) :
    ∃ i cm, lines.findIdx? (fun line => jsTrim line = "[data]") = some i ∧
      rows = parseDataRows cm (mergedMappings options.customColumnMappings)
        options.maxDataPoints (lines.drop (i + 1)) 0 := by
  unfold parseDataSectionRaw at h
  split at h
  · cases h
  · next i hidx =>
    dsimp only at h
    simp only [Except.ok.injEq] at h
    exact ⟨i, _, hidx, h.symm⟩

lemma parseVBOContentLines_ok {lines : List String} {filePath : String}
    {options : VBOParserOptions} {session : VBOSession}
    (h : parseVBOContentLines lines filePath options = Except.ok session) :
    ∃ header raws, parseHeader lines = Except.ok header ∧
      parseDataSectionRaw lines header options = Except.ok raws ∧
      session.dataPoints = normalizeDataPoints raws := by
  unfold parseVBOContentLines at h
  split at h
  · cases h
  · split at h
    · cases h
    · next header hph =>
      split at h
      · cases h
      · next raws hpd =>
        split at h
        · cases h
        · simp only [Except.ok.injEq] at h
          refine ⟨header, raws, hph, hpd, ?_⟩
          rw [← h]

lemma parseVBOContentLines_ok_length {lines : List String} {filePath : String}
    {options : VBOParserOptions} {session : VBOSession}
    (h : parseVBOContentLines lines filePath options = Except.ok session) :
    session.dataPoints.length =
      (match options.maxDataPoints with
       | none => dataSectionLineCount lines
       | some m => min m (dataSectionLineCount lines)) := by
  obtain ⟨header, raws, hph, hpd, hdp⟩ := parseVBOContentLines_ok h
  obtain ⟨i, cm, hidx, hrows⟩ := parseDataSectionRaw_ok hpd
  have hc : dataSectionLineCount lines = ((lines.drop (i + 1)).filter isDataRowLine).length := by
    unfold dataSectionLineCount
    rw [hidx]
  rw [hdp, normalizeDataPoints_length, hrows, hc]
  cases hmax : options.maxDataPoints with
  | none =>
    rw [parseDataRows_none_eq]
    simp
  | some m =>
    rw [parseDataRows_some_eq]
    simp [Nat.sub_zero, min_comm]

lemma parseVBOContentLines_ok_min_time {lines : List String} {filePath : String}
    {options : VBOParserOptions} {session : VBOSession}
    (h : parseVBOContentLines lines filePath options = Except.ok session)
    (hne : session.dataPoints ≠ []) :
    ∃ p ∈ session.dataPoints, p.time = 0 ∧ ∀ q ∈ session.dataPoints, 0 ≤ q.time := by
  obtain ⟨header, raws, hph, hpd, hdp⟩ := parseVBOContentLines_ok h
  have hraws : raws ≠ [] := by
    intro hr
    rw [hdp, hr] at hne
    exact hne rfl
  rw [hdp]
  exact normalizeDataPoints_min_time raws hraws

end VBOParser

/-- C1 (amended): for every input on which `parse` succeeds, the
session's `dataPoints.length` equals the number of non-blank,
non-bracketed lines following the `[data]` marker up to the end of the
input (bounded by `maxDataPoints` when set), and the *minimum* of the
`time` field over `dataPoints` is exactly 0 (the first sample's time is
0 exactly when the first data row carries the minimal raw time). -/
theorem claim1_amended (content filePath : String) (options : VBOParserOptions)
    (session : VBOSession)
    (h : VBOParser.parseVBOContent content filePath options = Except.ok session) :
    (session.dataPoints.length =
      (match options.maxDataPoints with
       | none => VBOParser.dataSectionLineCount (splitLines content)
       | some m => min m (VBOParser.dataSectionLineCount (splitLines content)))) ∧
    (session.dataPoints ≠ [] →
      ∃ p ∈ session.dataPoints, p.time = 0 ∧ ∀ q ∈ session.dataPoints, 0 ≤ q.time) :=
  ⟨VBOParser.parseVBOContentLines_ok_length h,
   fun hne => VBOParser.parseVBOContentLines_ok_min_time h hne⟩

/-- C1 (counterexample): on `[header] satellites time [data]` with rows
`1 5` and `1 3`, `parse` succeeds with two data points — the full
non-blank non-bracketed line count — but the first element's time is 2,
not 0 (the second row holds the minimum raw time 3). -/
theorem claim1_counterexample :
    (VBOParser.parseVBOContent c1Input "test.vbo" {}).toOption.map
        (fun s => (s.dataPoints.length, s.dataPoints.map (fun p => p.time))) =
      some (2, [2, 0]) ∧
    VBOParser.dataSectionLineCount (splitLines c1Input) = 2 := by
  constructor <;> with_unfolding_all decide

/-- Witness for `claim1_amended` at the concrete input `c1Input`. -/
theorem claim1_witness :
    ∃ session, VBOParser.parseVBOContent c1Input "test.vbo" {} = Except.ok session ∧
      session.dataPoints.length =
        VBOParser.dataSectionLineCount (splitLines c1Input) ∧
      ∃ p ∈ session.dataPoints, p.time = 0 ∧ ∀ q ∈ session.dataPoints, 0 ≤ q.time := by
  have hsome : (VBOParser.parseVBOContent c1Input "test.vbo" {}).toOption.isSome = true := by
    with_unfolding_all decide
  obtain ⟨session, hs⟩ : ∃ s, VBOParser.parseVBOContent c1Input "test.vbo" {} = Except.ok s := by
    cases h : VBOParser.parseVBOContent c1Input "test.vbo" {} with
    | ok s => exact ⟨s, rfl⟩
    | error e => rw [h] at hsome; cases hsome
  have hlen : session.dataPoints.length = 2 := by
    have hmap : (VBOParser.parseVBOContent c1Input "test.vbo" {}).toOption.map
        (fun s => s.dataPoints.length) = some 2 := by
      with_unfolding_all decide
    rw [hs] at hmap
    have htop : (Except.ok session : Except VBOParseError VBOSession).toOption =
        some session := rfl
    rw [htop, Option.map_some'] at hmap
    simpa using hmap
  have h1 := claim1_amended c1Input "test.vbo" {} session hs
  refine ⟨session, hs, ?_, ?_⟩
  · simpa using h1.1
  · exact h1.2 (by
      intro hnil
      rw [hnil] at hlen
      cases hlen)

/-- C8: when `maxDataPoints` is set, at most that many rows are decoded;
with a limit of 0 and both `[header]` and `[data]` present, `parse`
succeeds with zero data points, while an input without a `[data]`
section still fails even under a zero limit. -/
theorem claim8_max_data_points (content filePath : String) (options : VBOParserOptions) :
    (options.maxDataPoints = some 0 →
      ((∃ i, (splitLines content).findIdx? (fun l => jsTrim l = "[header]") = some i) →
       (∃ j, (splitLines content).findIdx? (fun l => jsTrim l = "[data]") = some j) →
        ∃ s, VBOParser.parseVBOContent content filePath options = Except.ok s ∧
          s.dataPoints = []) ∧
      ((splitLines content).findIdx? (fun l => jsTrim l = "[data]") = none →
        ∃ e, VBOParser.parseVBOContent content filePath options = Except.error e)) ∧
    (∀ m s, options.maxDataPoints = some m →
      VBOParser.parseVBOContent content filePath options = Except.ok s →
      s.dataPoints.length ≤ m) := by
  constructor
  · intro h0
    constructor
    · rintro ⟨i, hh⟩ ⟨j, hd⟩
      set lines := splitLines content with hlines
      have hne : lines.isEmpty = false := by
        cases hl : lines with
        | nil => rw [hl] at hd; cases hd
        | cons a l => rfl
      obtain ⟨hdr, hph⟩ : ∃ hdr, VBOParser.parseHeader lines = Except.ok hdr := by
        unfold VBOParser.parseHeader
        rw [hh]
        exact ⟨_, rfl⟩
      have hpd : VBOParser.parseDataSectionRaw lines hdr options = Except.ok [] := by
        unfold VBOParser.parseDataSectionRaw
        rw [hd]
        dsimp only
        rw [h0, VBOParser.parseDataRows_some_eq]
        rfl
      unfold VBOParser.parseVBOContent VBOParser.parseVBOContentLines
      rw [← hlines, hne]
      simp only [Bool.false_eq_true, if_false, hph, hpd, h0]
      exact ⟨_, rfl, rfl⟩
    · intro hd
      set lines := splitLines content with hlines
      unfold VBOParser.parseVBOContent VBOParser.parseVBOContentLines
      rw [← hlines]
      by_cases he : lines.isEmpty
      · rw [he]
        exact ⟨_, rfl⟩
      · rw [Bool.not_eq_true] at he
        rw [he]
        simp only [Bool.false_eq_true, if_false]
        cases hph : VBOParser.parseHeader lines with
        | error e => exact ⟨e, rfl⟩
        | ok hdr =>
          have hpd : VBOParser.parseDataSectionRaw lines hdr options =
              Except.error ⟨"No [data] section found in VBO file"⟩ := by
            unfold VBOParser.parseDataSectionRaw
            rw [hd]
          dsimp only
          rw [hpd]
          exact ⟨_, rfl⟩
  · intro m s hm hok
    have := VBOParser.parseVBOContentLines_ok_length hok
    rw [hm] at this
    simp only at this
    rw [this]
    exact Nat.min_le_left m _

/-- Witness for `claim8_max_data_points`: the zero-limit parse of the
five-row fixture succeeds with no data points, the same input without
its `[data]` marker fails, and a limit of 3 keeps 3 of 5 rows. -/
theorem claim8_witness :
    (∃ s, VBOParser.parseVBOContent "[header]\nsatellites\ntime\n[data]\n8 1.5\n7 2.0"
        "t.vbo" ⟨true, [], false, some 0⟩ = Except.ok s ∧ s.dataPoints = []) ∧
    (∃ e, VBOParser.parseVBOContent "[header]\nsatellites\ntime"
        "t.vbo" ⟨true, [], false, some 0⟩ = Except.error e) ∧
    (∀ s, VBOParser.parseVBOContent "[header]\nsatellites\ntime\n[data]\n8 1.5\n7 2.0"
        "t.vbo" ⟨true, [], false, some 1⟩ = Except.ok s → s.dataPoints.length ≤ 1) := by
  refine ⟨?_, ?_, ?_⟩
  · exact ((claim8_max_data_points "[header]\nsatellites\ntime\n[data]\n8 1.5\n7 2.0"
      "t.vbo" ⟨true, [], false, some 0⟩).1 rfl).1
      ⟨0, by with_unfolding_all decide⟩
      ⟨3, by with_unfolding_all decide⟩
  · exact ((claim8_max_data_points "[header]\nsatellites\ntime"
      "t.vbo" ⟨true, [], false, some 0⟩).1 rfl).2 (by with_unfolding_all decide)
  · intro s hs
    exact (claim8_max_data_points _ _ _).2 1 s rfl hs

/-- C9: the data-row scan of `parseDataSectionRaw` treats bracketed
lines as lines to skip, not as terminators: prepending a bracketed line
leaves the scan unchanged, and with no limit the scan decodes exactly
every non-blank, non-bracketed line to the end of the input. -/
theorem claim9_scan_skips_brackets (cm : List String) (mp : String → Option FieldName)
    (maxD : Option ℕ) (line : String) (rest : List String) (k : ℕ) :
    (jsStartsWith (jsTrim line) "[" = true →
      VBOParser.parseDataRows cm mp maxD (line :: rest) k =
        VBOParser.parseDataRows cm mp maxD rest k) ∧
    VBOParser.parseDataRows cm mp none rest k =
      (rest.filter VBOParser.isDataRowLine).map (VBOParser.decodeLine cm mp) := by
  constructor
  · intro hb
    conv_lhs => rw [VBOParser.parseDataRows.eq_def]
    dsimp only
    rw [if_pos (Or.inr hb)]
  · exact VBOParser.parseDataRows_none_eq cm mp rest k

/-- Witness for `claim9_scan_skips_brackets`: a `[laptiming]` header
line in the row stream is skipped and the following content line is
decoded. -/
theorem claim9_witness :
    VBOParser.parseDataRows ["sats", "time"] (VBOParser.mergedMappings []) none
        ["[laptiming]", "8 1.5"] 0 =
      VBOParser.parseDataRows ["sats", "time"] (VBOParser.mergedMappings []) none
        ["8 1.5"] 0 ∧
    VBOParser.parseDataRows ["sats", "time"] (VBOParser.mergedMappings []) none
        ["8 1.5"] 0 =
      (["8 1.5"].filter VBOParser.isDataRowLine).map
        (VBOParser.decodeLine ["sats", "time"] (VBOParser.mergedMappings [])) :=
  ⟨(claim9_scan_skips_brackets ["sats", "time"] (VBOParser.mergedMappings []) none
      "[laptiming]" ["8 1.5"] 0).1 (by decide),
   (claim9_scan_skips_brackets ["sats", "time"] (VBOParser.mergedMappings []) none
      "x" ["8 1.5"] 0).2⟩

end VBO

namespace VBO
namespace LapDetection

lemma lapGroupOf_append (pre : List VBODataPoint) (q : VBODataPoint) (m : ℚ) :
    lapGroupOf (pre ++ [q]) m =
      lapGroupOf pre m ++ (if 0 < q.lapNumber ∧ q.lapNumber = m then [q] else []) := by
  unfold lapGroupOf
  rw [List.filter_append]
  congr 1
  simp only [List.filter_cons, List.filter_nil]
  by_cases h : 0 < q.lapNumber ∧ q.lapNumber = m
  · rw [if_pos h, if_pos (decide_eq_true h)]
  · rw [if_neg h, if_neg (by simpa using h)]

lemma keys_addToGroups (acc : List (ℚ × List VBODataPoint)) (n : ℚ) (q : VBODataPoint) :
    (addToGroups acc n q).map Prod.fst =
      if n ∈ acc.map Prod.fst then acc.map Prod.fst else acc.map Prod.fst ++ [n] := by
  induction acc with
  | nil => simp [addToGroups]
  | cons a rest ih =>
    obtain ⟨m0, g0⟩ := a
    by_cases h : m0 = n
    · subst h
      simp [addToGroups]
    · rw [show addToGroups ((m0, g0) :: rest) n q = (m0, g0) :: addToGroups rest n q by
        conv_lhs => rw [addToGroups]
        rw [if_neg h]]
      simp only [List.map_cons, ih]
      by_cases hn : n ∈ rest.map Prod.fst
      · rw [if_pos hn, if_pos (by simp [hn])]
      · rw [if_neg hn, if_neg (by simp [hn, Ne.symm h])]
        simp

lemma addToGroups_spec (q : VBODataPoint) (F : ℚ → List VBODataPoint) :
    ∀ acc : List (ℚ × List VBODataPoint),
      (acc.map Prod.fst).Nodup →
      (∀ m g, (m, g) ∈ acc → g = F m ∧ g ≠ []) →
      (q.lapNumber ∉ acc.map Prod.fst → F q.lapNumber = []) →
      ((addToGroups acc q.lapNumber q).map Prod.fst).Nodup ∧
      (∀ m g, (m, g) ∈ addToGroups acc q.lapNumber q →
        g = (if m = q.lapNumber then F m ++ [q] else F m) ∧ g ≠ []) ∧
      (∀ m, m ∉ (addToGroups acc q.lapNumber q).map Prod.fst →
        m ∉ acc.map Prod.fst ∧ m ≠ q.lapNumber) := by
  intro acc
  induction acc with
  | nil =>
    intro _ _ hcomp
    refine ⟨by simp [addToGroups], ?_, ?_⟩
    · intro m g hm
      simp only [addToGroups, List.mem_singleton, Prod.mk.injEq] at hm
      obtain ⟨rfl, rfl⟩ := hm
      rw [if_pos rfl, hcomp (by simp)]
      simp
    · intro m hm
      simp only [addToGroups, List.map_cons, List.map_nil, List.mem_singleton] at hm
      exact ⟨by simp, hm⟩
  | cons a rest ih =>
    obtain ⟨m0, g0⟩ := a
    intro hnodup hspec hcomp
    have hm0nr : m0 ∉ rest.map Prod.fst := (List.nodup_cons.mp (by simpa using hnodup)).1
    have hnodup' : (rest.map Prod.fst).Nodup := (List.nodup_cons.mp (by simpa using hnodup)).2
    by_cases h : m0 = q.lapNumber
    · have hstep : addToGroups ((m0, g0) :: rest) q.lapNumber q = (m0, g0 ++ [q]) :: rest := by
        conv_lhs => rw [addToGroups]
        rw [if_pos h]
      rw [hstep]
      have hkeys : ((m0, g0 ++ [q]) :: rest).map Prod.fst =
          ((m0, g0) :: rest).map Prod.fst := by simp
      refine ⟨by rw [hkeys]; exact hnodup, ?_, ?_⟩
      · intro m g hm
        rcases List.mem_cons.mp hm with heq | hmem
        · simp only [Prod.mk.injEq] at heq
          obtain ⟨rfl, rfl⟩ := heq
          have hg0 := hspec m g0 (List.mem_cons_self _ _)
          rw [if_pos h, ← hg0.1]
          exact ⟨rfl, by simp⟩
        · have hg := hspec m g (List.mem_cons_of_mem _ hmem)
          have hmem' : m ∈ rest.map Prod.fst := List.mem_map_of_mem Prod.fst hmem
          have hmne : m ≠ q.lapNumber := by
            intro hEq
            apply hm0nr
            rw [h, ← hEq]
            exact hmem'
          rw [if_neg hmne]
          exact hg
      · intro m hm
        rw [hkeys] at hm
        simp only [List.map_cons, List.mem_cons] at hm
        push_neg at hm
        exact ⟨by simp [hm.1, hm.2], fun hEq => hm.1 (hEq.trans h.symm)⟩
    · have hstep : addToGroups ((m0, g0) :: rest) q.lapNumber q =
          (m0, g0) :: addToGroups rest q.lapNumber q := by
        conv_lhs => rw [addToGroups]
        rw [if_neg h]
      rw [hstep]
      obtain ⟨ihnodup, ihspec, ihcomp⟩ := ih hnodup'
        (fun m g hm => hspec m g (List.mem_cons_of_mem _ hm))
        (fun hq => hcomp (by
          simp only [List.map_cons, List.mem_cons]
          push_neg
          exact ⟨fun hEq => h hEq.symm, hq⟩))
      refine ⟨?_, ?_, ?_⟩
      · simp only [List.map_cons, List.nodup_cons]
        refine ⟨?_, ihnodup⟩
        rw [keys_addToGroups]
        split_ifs with hin
        · exact hm0nr
        · simp [hm0nr, h]
      · intro m g hm
        rcases List.mem_cons.mp hm with heq | hmem
        · simp only [Prod.mk.injEq] at heq
          obtain ⟨hm1, hm2⟩ := heq
          subst hm1
          subst hm2
          rw [if_neg h]
          exact hspec m g (List.mem_cons_self _ _)
        · exact ihspec m g hmem
      · intro m hm
        simp only [List.map_cons, List.mem_cons] at hm
        push_neg at hm
        obtain ⟨hnr, hne⟩ := ihcomp m hm.2
        exact ⟨by simp [hm.1, hnr], hne⟩


lemma groupsLoop_spec :
    ∀ (ps : List VBODataPoint) (acc : List (ℚ × List VBODataPoint))
      (pre : List VBODataPoint),
      (acc.map Prod.fst).Nodup →
      (∀ m g, (m, g) ∈ acc → g = lapGroupOf pre m ∧ g ≠ []) →
      (∀ m, m ∉ acc.map Prod.fst → lapGroupOf pre m = []) →
      ∀ m g, (m, g) ∈ groupsLoop ps acc → g = lapGroupOf (pre ++ ps) m ∧ g ≠ [] := by
  intro ps
  induction ps with
  | nil =>
    intro acc pre _ hspec _ m g hm
    rw [List.append_nil]
    exact hspec m g hm
  | cons p ps ih =>
    intro acc pre hnodup hspec hcomp m g hm
    rw [show pre ++ p :: ps = (pre ++ [p]) ++ ps by simp]
    rw [show groupsLoop (p :: ps) acc =
        groupsLoop ps (if 0 < p.lapNumber then addToGroups acc p.lapNumber p else acc) by
      rfl] at hm
    by_cases hp : 0 < p.lapNumber
    · rw [if_pos hp] at hm
      obtain ⟨anodup, aspec, acomp⟩ := addToGroups_spec p (lapGroupOf pre) acc hnodup hspec
        (fun hq => hcomp p.lapNumber hq)
      refine ih _ (pre ++ [p]) anodup ?_ ?_ m g hm
      · intro m' g' hm'
        obtain ⟨hg', hne'⟩ := aspec m' g' hm'
        refine ⟨?_, hne'⟩
        rw [hg', lapGroupOf_append]
        by_cases hEq : m' = p.lapNumber
        · rw [if_pos hEq, if_pos ⟨hp, hEq.symm⟩]
        · rw [if_neg hEq, if_neg (fun hc => hEq hc.2.symm)]
          simp
      · intro m' hm'
        obtain ⟨hnr, hne⟩ := acomp m' hm'
        rw [lapGroupOf_append, hcomp m' hnr, if_neg (fun hc => hne hc.2.symm)]
        rfl
    · rw [if_neg hp] at hm
      refine ih acc (pre ++ [p]) hnodup ?_ ?_ m g hm
      · intro m' g' hm'
        obtain ⟨hg', hne'⟩ := hspec m' g' hm'
        refine ⟨?_, hne'⟩
        rw [hg', lapGroupOf_append, if_neg (fun hc => hp hc.1)]
        simp
      · intro m' hm'
        rw [lapGroupOf_append, hcomp m' hm', if_neg (fun hc => hp hc.1)]
        rfl

/-- Every group of `groupByLapNumber` is exactly the non-empty filter of
the stream by its lap number. -/
lemma groupByLapNumber_spec (dataPoints : List VBODataPoint) (m : ℚ)
    (g : List VBODataPoint) (hm : (m, g) ∈ groupByLapNumber dataPoints) :
    g = lapGroupOf dataPoints m ∧ g ≠ [] := by
  have := groupsLoop_spec dataPoints [] [] (by simp) (by simp) (fun m' _ => rfl) m g hm
  simpa using this

lemma foldl_min_withTop (l : List VBODataPoint) :
    ∀ a : WithTop ℚ,
      (l.foldl (fun acc p => if (p.time : WithTop ℚ) < acc then (p.time : WithTop ℚ) else acc) a = a ∨
        ∃ p ∈ l, l.foldl (fun acc p => if (p.time : WithTop ℚ) < acc then (p.time : WithTop ℚ) else acc) a = (p.time : WithTop ℚ)) ∧
      l.foldl (fun acc p => if (p.time : WithTop ℚ) < acc then (p.time : WithTop ℚ) else acc) a ≤ a ∧
      ∀ p ∈ l, l.foldl (fun acc p => if (p.time : WithTop ℚ) < acc then (p.time : WithTop ℚ) else acc) a ≤ (p.time : WithTop ℚ) := by
  induction l with
  | nil => intro a; exact ⟨Or.inl rfl, le_refl a, by simp⟩
  | cons q l ih =>
    intro a
    have step : List.foldl (fun acc p => if (p.time : WithTop ℚ) < acc then (p.time : WithTop ℚ) else acc) a (q :: l) =
        List.foldl (fun acc p => if (p.time : WithTop ℚ) < acc then (p.time : WithTop ℚ) else acc)
          (if (q.time : WithTop ℚ) < a then (q.time : WithTop ℚ) else a) l := rfl
    obtain ⟨hat, hle, hall⟩ := ih (if (q.time : WithTop ℚ) < a then (q.time : WithTop ℚ) else a)
    have hsle : (if (q.time : WithTop ℚ) < a then (q.time : WithTop ℚ) else a) ≤ a := by
      split_ifs with hq
      · exact le_of_lt hq
      · exact le_refl a
    have hsq : (if (q.time : WithTop ℚ) < a then (q.time : WithTop ℚ) else a) ≤ (q.time : WithTop ℚ) := by
      split_ifs with hq
      · exact le_refl _
      · exact le_of_not_lt hq
    refine ⟨?_, ?_, ?_⟩
    · rw [step]
      rcases hat with h | ⟨p, hp, hpe⟩
      · rw [h]
        split_ifs with hq
        · exact Or.inr ⟨q, List.mem_cons_self q l, rfl⟩
        · exact Or.inl rfl
      · exact Or.inr ⟨p, List.mem_cons_of_mem q hp, hpe⟩
    · rw [step]; exact le_trans hle hsle
    · intro p hp
      rw [step]
      rcases List.mem_cons.mp hp with rfl | hpl
      · exact le_trans hle hsq
      · exact hall p hpl

lemma foldMinTime_spec (points : List VBODataPoint) (hne : points ≠ []) :
    ∃ t : ℚ, foldMinTime points = (t : WithTop ℚ) ∧ (∃ p ∈ points, p.time = t) ∧
      ∀ p ∈ points, t ≤ p.time := by
  obtain ⟨hat, _, hall⟩ := foldl_min_withTop points ⊤
  rcases hat with htop | ⟨p, hp, hpe⟩
  · exfalso
    obtain ⟨p, hp⟩ := List.exists_mem_of_ne_nil points hne
    have := hall p hp
    rw [htop] at this
    exact absurd this (by simp)
  · refine ⟨p.time, hpe, ⟨p, hp, rfl⟩, ?_⟩
    intro r hr
    have := hall r hr
    rw [hpe] at this
    exact_mod_cast this

lemma foldl_max_withBot (l : List VBODataPoint) :
    ∀ a : WithBot ℚ,
      (l.foldl (fun acc p => if acc < (p.time : WithBot ℚ) then (p.time : WithBot ℚ) else acc) a = a ∨
        ∃ p ∈ l, l.foldl (fun acc p => if acc < (p.time : WithBot ℚ) then (p.time : WithBot ℚ) else acc) a = (p.time : WithBot ℚ)) ∧
      a ≤ l.foldl (fun acc p => if acc < (p.time : WithBot ℚ) then (p.time : WithBot ℚ) else acc) a ∧
      ∀ p ∈ l, (p.time : WithBot ℚ) ≤ l.foldl (fun acc p => if acc < (p.time : WithBot ℚ) then (p.time : WithBot ℚ) else acc) a := by
  induction l with
  | nil => intro a; exact ⟨Or.inl rfl, le_refl a, by simp⟩
  | cons q l ih =>
    intro a
    have step : List.foldl (fun acc p => if acc < (p.time : WithBot ℚ) then (p.time : WithBot ℚ) else acc) a (q :: l) =
        List.foldl (fun acc p => if acc < (p.time : WithBot ℚ) then (p.time : WithBot ℚ) else acc)
          (if a < (q.time : WithBot ℚ) then (q.time : WithBot ℚ) else a) l := rfl
    obtain ⟨hat, hle, hall⟩ := ih (if a < (q.time : WithBot ℚ) then (q.time : WithBot ℚ) else a)
    have hsle : a ≤ (if a < (q.time : WithBot ℚ) then (q.time : WithBot ℚ) else a) := by
      split_ifs with hq
      · exact le_of_lt hq
      · exact le_refl a
    have hsq : (q.time : WithBot ℚ) ≤ (if a < (q.time : WithBot ℚ) then (q.time : WithBot ℚ) else a) := by
      split_ifs with hq
      · exact le_refl _
      · exact le_of_not_lt hq
    refine ⟨?_, ?_, ?_⟩
    · rw [step]
      rcases hat with h | ⟨p, hp, hpe⟩
      · rw [h]
        split_ifs with hq
        · exact Or.inr ⟨q, List.mem_cons_self q l, rfl⟩
        · exact Or.inl rfl
      · exact Or.inr ⟨p, List.mem_cons_of_mem q hp, hpe⟩
    · rw [step]; exact le_trans hsle hle
    · intro p hp
      rw [step]
      rcases List.mem_cons.mp hp with rfl | hpl
      · exact le_trans hsq hle
      · exact hall p hpl

lemma foldMaxTime_spec (points : List VBODataPoint) (hne : points ≠ []) :
    ∃ t : ℚ, foldMaxTime points = (t : WithBot ℚ) ∧ (∃ p ∈ points, p.time = t) ∧
      ∀ p ∈ points, p.time ≤ t := by
  obtain ⟨hat, _, hall⟩ := foldl_max_withBot points ⊥
  rcases hat with hbot | ⟨p, hp, hpe⟩
  · exfalso
    obtain ⟨p, hp⟩ := List.exists_mem_of_ne_nil points hne
    have := hall p hp
    rw [hbot] at this
    exact absurd this (by simp)
  · refine ⟨p.time, hpe, ⟨p, hp, rfl⟩, ?_⟩
    intro r hr
    have := hall r hr
    rw [hpe] at this
    exact_mod_cast this


/-- Every lap produced by `detectFromLapNumbers` is a valid lap over its
group, with min/max times and difference lap time, and the output is
sorted by start time. -/
lemma detectFromLapNumbers_props (dataPoints : List VBODataPoint)
    (options : LapDetectionOptions) :
    List.Sorted lapLE (detectFromLapNumbers dataPoints options) ∧
    ∀ lap ∈ detectFromLapNumbers dataPoints options,
      lap.isValid = true ∧
      lap.dataPoints = lapGroupOf dataPoints lap.lapNumber ∧
      lap.dataPoints ≠ [] ∧
      (∃ p ∈ lap.dataPoints, p.time = lap.startTime) ∧
      (∀ p ∈ lap.dataPoints, lap.startTime ≤ p.time) ∧
      (∃ p ∈ lap.dataPoints, p.time = lap.endTime) ∧
      (∀ p ∈ lap.dataPoints, p.time ≤ lap.endTime) ∧
      lap.lapTime = lap.endTime - lap.startTime := by
  unfold detectFromLapNumbers
  dsimp only
  constructor
  · haveI ht : IsTotal VBOLap lapLE := ⟨fun a b => le_total a.startTime b.startTime⟩
    haveI htr : IsTrans VBOLap lapLE := ⟨fun a b c hab hbc => le_trans hab hbc⟩
    exact List.sorted_insertionSort lapLE _
  · intro lap hlap
    rw [List.mem_insertionSort] at hlap
    obtain ⟨mg, hmem, hf⟩ := List.mem_filterMap.mp hlap
    obtain ⟨m, points⟩ := mg
    obtain ⟨hpts, hne⟩ := groupByLapNumber_spec dataPoints m points hmem
    dsimp only at hf
    rw [if_neg (by simpa [List.isEmpty_iff] using hne)] at hf
    obtain ⟨tmin, hmin, hminmem, hminle⟩ := foldMinTime_spec points hne
    obtain ⟨tmax, hmax, hmaxmem, hmaxle⟩ := foldMaxTime_spec points hne
    rw [hmin, hmax] at hf
    simp only [Option.some.injEq] at hf
    subst hf
    refine ⟨rfl, ?_, hne, ?_, ?_, ?_, ?_, rfl⟩
    · simpa using hpts
    · simpa using hminmem
    · simpa using hminle
    · simpa using hmaxmem
    · simpa using hmaxle

end LapDetection

/-- C4: for sample streams carrying positive lap numbers, `detectLaps`
groups by lap number; each lap is marked valid, owns exactly its group,
has min/max group times as start/end, lap time their difference, and
the output is sorted by start time ascending.  In particular the
`[1,1,1,1,1,2,2,2,2,2]` / `[0,10,…,90]` fixture yields exactly the two
laps `(0,40)` and `(50,90)` with lap time 40 each. -/
theorem claim4_lap_grouping :
    (∀ (dataPoints : List VBODataPoint) (options : LapDetectionOptions),
      (∃ p ∈ dataPoints, 0 < p.lapNumber) →
      List.Sorted LapDetection.lapLE (LapDetection.detectLaps dataPoints options) ∧
      ∀ lap ∈ LapDetection.detectLaps dataPoints options,
        lap.isValid = true ∧
        lap.dataPoints = LapDetection.lapGroupOf dataPoints lap.lapNumber ∧
        lap.dataPoints ≠ [] ∧
        (∃ p ∈ lap.dataPoints, p.time = lap.startTime) ∧
        (∀ p ∈ lap.dataPoints, lap.startTime ≤ p.time) ∧
        (∃ p ∈ lap.dataPoints, p.time = lap.endTime) ∧
        (∀ p ∈ lap.dataPoints, p.time ≤ lap.endTime) ∧
        lap.lapTime = lap.endTime - lap.startTime) ∧
    (LapDetection.detectLaps c4Points {}).map
        (fun l => (l.lapNumber, l.startTime, l.endTime, l.lapTime, l.isValid)) =
      [(1, 0, 40, 40, true), (2, 50, 90, 40, true)] := by
  constructor
  · intro dataPoints options hex
    obtain ⟨p, hp, hppos⟩ := hex
    have hdl : LapDetection.detectLaps dataPoints options =
        LapDetection.detectFromLapNumbers dataPoints options := by
      unfold LapDetection.detectLaps
      dsimp only
      rw [if_neg (by
        simp only [List.isEmpty_iff]
        intro hnil
        rw [hnil] at hp
        cases hp)]
      rw [if_pos]
      have hpf : p ∈ dataPoints.filter (fun p => decide (0 < p.lapNumber)) :=
        List.mem_filter.mpr ⟨hp, decide_eq_true hppos⟩
      have := List.length_pos.mpr (List.ne_nil_of_mem hpf)
      simpa using this
    rw [hdl]
    exact LapDetection.detectFromLapNumbers_props dataPoints options
  · with_unfolding_all decide

/-- Witness for `claim4_lap_grouping` at the ten-sample fixture. -/
theorem claim4_witness :
    (∃ p ∈ c4Points, 0 < p.lapNumber) ∧
      (List.Sorted LapDetection.lapLE (LapDetection.detectLaps c4Points {}) ∧
       ∀ lap ∈ LapDetection.detectLaps c4Points {},
        lap.isValid = true ∧
        lap.dataPoints = LapDetection.lapGroupOf c4Points lap.lapNumber ∧
        lap.dataPoints ≠ [] ∧
        (∃ p ∈ lap.dataPoints, p.time = lap.startTime) ∧
        (∀ p ∈ lap.dataPoints, lap.startTime ≤ p.time) ∧
        (∃ p ∈ lap.dataPoints, p.time = lap.endTime) ∧
        (∀ p ∈ lap.dataPoints, p.time ≤ lap.endTime) ∧
        lap.lapTime = lap.endTime - lap.startTime) :=
  have hex : ∃ p ∈ c4Points, 0 < p.lapNumber :=
    ⟨mkTimedPoint 0 1, by simp [c4Points], by with_unfolding_all decide⟩
  ⟨hex, claim4_lap_grouping.1 c4Points {} hex⟩

end VBO

namespace VBO
namespace SessionComparison

/-- `checkLaps` succeeds exactly on lists of non-empty laps, and on
failure blames an actually empty lap. -/
lemma checkLaps_spec (fp : String) (laps : List VBOLap) :
    (checkLaps fp laps = Except.ok () ∧ ∀ lap ∈ laps, lap.dataPoints ≠ []) ∨
    (∃ lap ∈ laps, lap.dataPoints = [] ∧
      checkLaps fp laps = Except.error (CompError.emptyLap lap.lapNumber fp)) := by
  induction laps with
  | nil => exact Or.inl ⟨rfl, by simp⟩
  | cons lap rest ih =>
    by_cases h : lap.dataPoints.isEmpty = true
    · refine Or.inr ⟨lap, List.mem_cons_self _ _, List.isEmpty_iff.mp h, ?_⟩
      unfold checkLaps
      rw [if_pos h]
    · have hstep : checkLaps fp (lap :: rest) = checkLaps fp rest := by
        conv_lhs => rw [checkLaps]
        rw [if_neg h]
      rcases ih with ⟨hok, hall⟩ | ⟨lap', hmem, hempty, herr⟩
      · refine Or.inl ⟨hstep.trans hok, ?_⟩
        intro l hl
        rcases List.mem_cons.mp hl with rfl | hl'
        · exact fun hc => h (List.isEmpty_iff.mpr hc)
        · exact hall l hl'
      · exact Or.inr ⟨lap', List.mem_cons_of_mem _ hmem, hempty, hstep.trans herr⟩

/-- Extending the session list preserves the offender witness. -/
lemma errNamesOffender_cons {e : CompError} {s : VBOSession} {sessions : List VBOSession}
    (h : ErrNamesOffender e sessions) : ErrNamesOffender e (s :: sessions) := by
  cases e with
  | noLaps fp =>
    obtain ⟨s', hs', h1, h2⟩ := h
    exact ⟨s', List.mem_cons_of_mem _ hs', h1, h2⟩
  | emptyLap n fp =>
    obtain ⟨s', hs', h1, h2⟩ := h
    exact ⟨s', List.mem_cons_of_mem _ hs', h1, h2⟩
  | trackMismatch a b => exact h.elim
  | invalidLapIndex i => exact h.elim
  | invalidDataPointIndex i => exact h.elim
  | invalidLapCalculation => exact h.elim
  | lapNotFound n => exact h.elim
  | progressOutOfRange => exact h.elim

/-- `checkAllSessions` succeeds exactly when every listed session is
valid, and on failure its error names a genuine offender. -/
lemma checkAllSessions_spec (sessions : List VBOSession) :
    (checkAllSessions sessions = Except.ok () ∧ ∀ s ∈ sessions, SessionValid s) ∨
    (∃ e, checkAllSessions sessions = Except.error e ∧ ErrNamesOffender e sessions) := by
  induction sessions with
  | nil => exact Or.inl ⟨rfl, by simp⟩
  | cons s rest ih =>
    by_cases hno : s.laps.isEmpty = true
    · have hcs : checkSession s = Except.error (CompError.noLaps s.filePath) := by
        unfold checkSession
        rw [if_pos hno]
      refine Or.inr ⟨CompError.noLaps s.filePath, ?_,
        s, List.mem_cons_self _ _, rfl, List.isEmpty_iff.mp hno⟩
      unfold checkAllSessions
      rw [hcs]
    · have hcs : checkSession s = checkLaps s.filePath s.laps := by
        unfold checkSession
        rw [if_neg hno]
      rcases checkLaps_spec s.filePath s.laps with ⟨hok, hall⟩ | ⟨lap, hmem, hempty, herr⟩
      · have hstep : checkAllSessions (s :: rest) = checkAllSessions rest := by
          conv_lhs => rw [checkAllSessions]
          rw [hcs, hok]
        rcases ih with ⟨hok2, hall2⟩ | ⟨e, herr2, hname⟩
        · refine Or.inl ⟨hstep.trans hok2, ?_⟩
          intro s' hs'
          rcases List.mem_cons.mp hs' with rfl | hs''
          · exact ⟨fun hc => hno (List.isEmpty_iff.mpr hc), hall⟩
          · exact hall2 s' hs''
        · exact Or.inr ⟨e, hstep.trans herr2, errNamesOffender_cons hname⟩
      · refine Or.inr ⟨CompError.emptyLap lap.lapNumber s.filePath, ?_,
          s, List.mem_cons_self _ _, rfl, lap, hmem, rfl, hempty⟩
        unfold checkAllSessions
        rw [hcs, herr]

/-- `checkTracks` fails as soon as the list holds a comparator with a
known circuit name different from the known main one. -/
lemma checkTracks_error (mainCircuit : Option String) (sessions : List VBOSession)
    (cs : VBOSession) (hmem : cs ∈ sessions)
    (hk1 : circuitKnown mainCircuit = true)
    (hk2 : circuitKnown cs.circuitInfo.circuit = true)
    (hne : mainCircuit ≠ cs.circuitInfo.circuit) :
    ∃ e, checkTracks mainCircuit sessions = Except.error e := by
  induction sessions with
  | nil => cases hmem
  | cons s rest ih =>
    rcases List.mem_cons.mp hmem with rfl | hmem'
    · refine ⟨CompError.trackMismatch (mainCircuit.getD "")
        (cs.circuitInfo.circuit.getD ""), ?_⟩
      unfold checkTracks
      dsimp only
      rw [if_pos ⟨hk1, hk2, hne⟩]
    · by_cases hc : (circuitKnown mainCircuit = true ∧
          circuitKnown s.circuitInfo.circuit = true ∧ mainCircuit ≠ s.circuitInfo.circuit)
      · refine ⟨CompError.trackMismatch (mainCircuit.getD "")
          (s.circuitInfo.circuit.getD ""), ?_⟩
        unfold checkTracks
        dsimp only
        rw [if_pos hc]
      · obtain ⟨e, he⟩ := ih hmem'
        refine ⟨e, ?_⟩
        unfold checkTracks
        dsimp only
        rw [if_neg hc]
        exact he

end SessionComparison

/-- C5: construction of a `SessionComparison` fails, returning an error
instead of a comparison object, whenever some tracked session (main or
comparator) has no laps or a lap without samples — the error naming the
offending session or lap — and, when `allowDifferentTracks` resolves to
`false`, whenever some comparator's known circuit name differs from the
main session's known circuit name. -/
theorem claim5_construction_validation :
    (∀ (mainSession : VBOSession) (comparatorSessions : List VBOSession)
        (options : SessionComparisonOptions),
      (∃ s ∈ mainSession :: comparatorSessions, ¬ SessionComparison.SessionValid s) →
      ∃ e, SessionComparison.construct mainSession comparatorSessions options =
          Except.error e ∧
        SessionComparison.ErrNamesOffender e (mainSession :: comparatorSessions)) ∧
    (∀ (mainSession : VBOSession) (comparatorSessions : List VBOSession)
        (options : SessionComparisonOptions),
      options.allowDifferentTracks.getD false = false →
      ∀ cs ∈ comparatorSessions,
        SessionComparison.circuitKnown mainSession.circuitInfo.circuit = true →
        SessionComparison.circuitKnown cs.circuitInfo.circuit = true →
        mainSession.circuitInfo.circuit ≠ cs.circuitInfo.circuit →
        ∃ e, SessionComparison.construct mainSession comparatorSessions options =
          Except.error e) := by
  constructor
  · intro mainSession comparatorSessions options hbad
    rcases SessionComparison.checkAllSessions_spec (mainSession :: comparatorSessions) with
      ⟨_, hall⟩ | ⟨e, herr, hname⟩
    · obtain ⟨s, hs, hnv⟩ := hbad
      exact absurd (hall s hs) hnv
    · refine ⟨e, ?_, hname⟩
      unfold SessionComparison.construct
      dsimp only
      unfold SessionComparison.validateSessions
      rw [herr]
  · intro mainSession comparatorSessions options hallow cs hcs hk1 hk2 hne
    unfold SessionComparison.construct
    dsimp only
    rw [hallow]
    unfold SessionComparison.validateSessions
    rcases hca : SessionComparison.checkAllSessions (mainSession :: comparatorSessions) with
      e | u
    · exact ⟨e, rfl⟩
    · cases u
      obtain ⟨e, he⟩ := SessionComparison.checkTracks_error
        mainSession.circuitInfo.circuit comparatorSessions cs hcs hk1 hk2 hne
      rw [if_neg (by simp)]
      rw [he]
      exact ⟨e, rfl⟩

/-- Witness for `claim5_construction_validation`: a lapless main
session fails with an offender-naming error, and a comparator from a
different known circuit fails construction with tracks not allowed to
differ. -/
theorem claim5_witness :
    (∃ s ∈ noLapsSession :: ([] : List VBOSession),
        ¬ SessionComparison.SessionValid s) ∧
    (∃ e, SessionComparison.construct noLapsSession [] {} = Except.error e ∧
      SessionComparison.ErrNamesOffender e [noLapsSession]) ∧
    (∃ e, SessionComparison.construct wSession [otherTrackSession] {} = Except.error e) :=
  have hbad : ∃ s ∈ noLapsSession :: ([] : List VBOSession),
      ¬ SessionComparison.SessionValid s :=
    ⟨noLapsSession, List.mem_cons_self _ _, fun hv => hv.1 rfl⟩
  ⟨hbad, claim5_construction_validation.1 noLapsSession [] {} hbad,
    claim5_construction_validation.2 wSession [otherTrackSession] {} rfl
      otherTrackSession (List.mem_cons_self _ _) rfl rfl (by simp [wSession, otherTrackSession, mkSession])⟩

end VBO

namespace VBO
namespace SessionComparison

/-- On a pair list without a near-exact match, the scan finishes in the
fallback state: the best pair is either the initial one or attained by
a scanned pair, and its difference bounds every scanned difference. -/
lemma findLoop_no_low (target : ℚ) :
    ∀ (pairs : List (ℕ × ℕ × ℚ)) (best : ℕ × ℕ × WithTop ℚ),
      (∀ p ∈ pairs, ¬ |p.2.2 - target| < 1/10000) →
      ∃ bl bp bd, findLoop target pairs best = Sum.inr (bl, bp, bd) ∧
        ((bl, bp, bd) = best ∨
          ∃ pr, (bl, bp, pr) ∈ pairs ∧ bd = ((|pr - target| : ℚ) : WithTop ℚ)) ∧
        bd ≤ best.2.2 ∧
        ∀ p ∈ pairs, bd ≤ ((|p.2.2 - target| : ℚ) : WithTop ℚ) := by
  intro pairs
  induction pairs with
  | nil =>
    intro best h
    obtain ⟨b1, b2, b3⟩ := best
    exact ⟨b1, b2, b3, rfl, Or.inl rfl, le_refl _, by simp⟩
  | cons q rest ih =>
    intro best h
    obtain ⟨li, pi, pr⟩ := q
    obtain ⟨b1, b2, b3⟩ := best
    have hq : ¬ |pr - target| < 1/10000 := by
      have := h (li, pi, pr) (List.mem_cons_self _ _)
      simpa using this
    have hrest : ∀ p ∈ rest, ¬ |p.2.2 - target| < 1/10000 :=
      fun p hp => h p (List.mem_cons_of_mem _ hp)
    have hstep : findLoop target ((li, pi, pr) :: rest) (b1, b2, b3) =
        findLoop target rest
          (if ((|pr - target| : ℚ) : WithTop ℚ) < b3 then
            (li, pi, ((|pr - target| : ℚ) : WithTop ℚ))
           else (b1, b2, b3)) := by
      conv_lhs => rw [findLoop]
      rw [if_neg hq]
    rw [hstep]
    by_cases himp : ((|pr - target| : ℚ) : WithTop ℚ) < b3
    · rw [if_pos himp]
      obtain ⟨bl, bp, bd, heq, hatt, hle, hall⟩ :=
        ih (li, pi, ((|pr - target| : ℚ) : WithTop ℚ)) hrest
      refine ⟨bl, bp, bd, heq, ?_, ?_, ?_⟩
      · rcases hatt with h' | ⟨pr', hmem, hbd⟩
        · simp only [Prod.mk.injEq] at h'
          obtain ⟨hbl, hbp, hbd⟩ := h'
          subst hbl; subst hbp
          exact Or.inr ⟨pr, List.mem_cons_self _ _, hbd⟩
        · exact Or.inr ⟨pr', List.mem_cons_of_mem _ hmem, hbd⟩
      · exact le_trans hle (le_of_lt himp)
      · intro p hp
        rcases List.mem_cons.mp hp with rfl | hp'
        · exact hle
        · exact hall p hp'
    · rw [if_neg himp]
      obtain ⟨bl, bp, bd, heq, hatt, hle, hall⟩ := ih (b1, b2, b3) hrest
      refine ⟨bl, bp, bd, heq, ?_, hle, ?_⟩
      · rcases hatt with h' | ⟨pr', hmem, hbd⟩
        · exact Or.inl h'
        · exact Or.inr ⟨pr', List.mem_cons_of_mem _ hmem, hbd⟩
      · intro p hp
        rcases List.mem_cons.mp hp with rfl | hp'
        · exact le_trans hle (not_lt.mp himp)
        · exact hall p hp'

/-- The scan `return`s on the first pair whose difference drops below
`1e-4`, provided the running best difference is still at least `1e-4`. -/
lemma findLoop_first_low (target : ℚ) :
    ∀ (pairs : List (ℕ × ℕ × ℚ)) (q : ℕ × ℕ × ℚ),
      pairs.find? (fun p => decide (|p.2.2 - target| < 1/10000)) = some q →
      ∀ best : ℕ × ℕ × WithTop ℚ,
        ((1/10000 : ℚ) : WithTop ℚ) ≤ best.2.2 →
        findLoop target pairs best = Sum.inl (q.1, q.2.1) := by
  intro pairs
  induction pairs with
  | nil =>
    intro q hfind
    simp at hfind
  | cons a rest ih =>
    intro q hfind best hbest
    obtain ⟨li, pi, pr⟩ := a
    obtain ⟨b1, b2, b3⟩ := best
    by_cases hlow : |pr - target| < 1/10000
    · rw [List.find?_cons_of_pos _ (by exact decide_eq_true hlow)] at hfind
      injection hfind with hq
      subst hq
      have hlt : ((|pr - target| : ℚ) : WithTop ℚ) < b3 :=
        lt_of_lt_of_le (WithTop.coe_lt_coe.mpr hlow) hbest
      conv_lhs => rw [findLoop]
      rw [if_pos hlow, if_pos hlt]
    · have hfind' : rest.find? (fun p => decide (|p.2.2 - target| < 1/10000)) = some q := by
        rw [List.find?_cons_of_neg _ (by simp only [decide_eq_true_eq]; exact hlow)] at hfind
        exact hfind
      conv_lhs => rw [findLoop]
      rw [if_neg hlow]
      by_cases himp : ((|pr - target| : ℚ) : WithTop ℚ) < b3
      · rw [if_pos himp]
        refine ih q hfind' (li, pi, ((|pr - target| : ℚ) : WithTop ℚ)) ?_
        show ((1/10000 : ℚ) : WithTop ℚ) ≤ ((|pr - target| : ℚ) : WithTop ℚ)
        exact WithTop.coe_le_coe.mpr (not_lt.mp hlow)
      · rw [if_neg himp]
        exact ih q hfind' (b1, b2, b3) hbest

/-- The tolerance test of `findClosestProgressPoint` decides nothing:
the function equals its tolerance-free form. -/
lemma findClosest_eq_best (session : VBOSession) (t tol : ℚ) :
    findClosestProgressPoint session t tol =
      match findLoop t (progressPairs session) (0, 0, ⊤) with
      | Sum.inl p => some p
      | Sum.inr b => some (b.1, b.2.1) := by
  unfold findClosestProgressPoint
  cases findLoop t (progressPairs session) (0, 0, ⊤) with
  | inl p => rfl
  | inr b =>
    obtain ⟨bl, bp, bd⟩ := b
    dsimp only
    rw [ite_self]

end SessionComparison

/-- C6: the closest-progress search never reports no-match and ignores
the tolerance entirely: its result does not depend on
`progressTolerance`; it returns the lap/sample indices of the first
scanned pair whose normalized progress is within `1e-4` of the target
when one exists; and otherwise, on any session with at least one lap
and no empty lap, it returns a scanned pair of globally minimal
progress difference. -/
theorem claim6_closest_match :
    (∀ (session : VBOSession) (targetProgress tol tol' : ℚ),
      SessionComparison.findClosestProgressPoint session targetProgress tol ≠ none ∧
      SessionComparison.findClosestProgressPoint session targetProgress tol =
        SessionComparison.findClosestProgressPoint session targetProgress tol') ∧
    (∀ (session : VBOSession) (targetProgress tol : ℚ) (q : ℕ × ℕ × ℚ),
      (SessionComparison.progressPairs session).find?
          (fun p => decide (|p.2.2 - targetProgress| < 1/10000)) = some q →
      SessionComparison.findClosestProgressPoint session targetProgress tol =
        some (q.1, q.2.1)) ∧
    (∀ (session : VBOSession) (targetProgress tol : ℚ),
      session.laps ≠ [] →
      (∀ lap ∈ session.laps, lap.dataPoints ≠ []) →
      (SessionComparison.progressPairs session).find?
          (fun p => decide (|p.2.2 - targetProgress| < 1/10000)) = none →
      ∃ li di pr,
        SessionComparison.findClosestProgressPoint session targetProgress tol =
          some (li, di) ∧
        (li, di, pr) ∈ SessionComparison.progressPairs session ∧
        ∀ p ∈ SessionComparison.progressPairs session,
          |pr - targetProgress| ≤ |p.2.2 - targetProgress|) := by
  refine ⟨?_, ?_, ?_⟩
  · intro session target tol tol'
    rw [SessionComparison.findClosest_eq_best session target tol,
      SessionComparison.findClosest_eq_best session target tol']
    refine ⟨?_, rfl⟩
    cases SessionComparison.findLoop target (SessionComparison.progressPairs session)
        (0, 0, ⊤) with
    | inl p => simp
    | inr b => simp
  · intro session target tol q hfind
    rw [SessionComparison.findClosest_eq_best session target tol]
    rw [SessionComparison.findLoop_first_low target (SessionComparison.progressPairs session)
      q hfind (0, 0, ⊤) le_top]
  · intro session target tol hlaps hne hnone
    have hnolow : ∀ p ∈ SessionComparison.progressPairs session,
        ¬ |p.2.2 - target| < 1/10000 := by
      intro p hp
      have := List.find?_eq_none.mp hnone p hp
      simpa using this
    obtain ⟨bl, bp, bd, heq, hatt, hle, hall⟩ :=
      SessionComparison.findLoop_no_low target (SessionComparison.progressPairs session)
        (0, 0, ⊤) hnolow
    obtain ⟨l0, rest, hsl⟩ := List.exists_cons_of_ne_nil hlaps
    have hp0 : (0, 0, SessionComparison.progressFormula session.laps.length 0
        l0.dataPoints.length 0) ∈ SessionComparison.progressPairs session := by
      unfold SessionComparison.progressPairs
      refine List.mem_flatMap.mpr ⟨(0, l0), ?_, ?_⟩
      · have henum : (l0 :: rest).enum = (0, l0) :: rest.enumFrom 1 := rfl
        rw [hsl, henum]
        exact List.mem_cons_self _ _
      · refine List.mem_map.mpr ⟨0, List.mem_range.mpr ?_, rfl⟩
        exact List.length_pos.mpr (hne l0 (by rw [hsl]; exact List.mem_cons_self _ _))
    rcases hatt with hinit | ⟨pr, hmem, hbd⟩
    · exfalso
      simp only [Prod.mk.injEq] at hinit
      have htop := hall _ hp0
      rw [hinit.2.2] at htop
      simp at htop
    · refine ⟨bl, bp, pr, ?_, hmem, ?_⟩
      · rw [SessionComparison.findClosest_eq_best session target tol, heq]
      · intro p hp
        have := hall p hp
        rw [hbd] at this
        exact_mod_cast this

/-- Witness for `claim6_closest_match` on the two-lap fixture: with
target 0 the search short-circuits on the first sample; with target
1/3 no pair is near-exact and a globally closest pair is returned. -/
theorem claim6_witness :
    (SessionComparison.findClosestProgressPoint wSession 0 (1/100) ≠ none ∧
      SessionComparison.findClosestProgressPoint wSession 0 (1/100) =
        SessionComparison.findClosestProgressPoint wSession 0 (42)) ∧
    ((SessionComparison.progressPairs wSession).find?
        (fun p => decide (|p.2.2 - 0| < 1/10000)) = some (0, 0, 0) ∧
      SessionComparison.findClosestProgressPoint wSession 0 (1/100) = some (0, 0)) ∧
    (wSession.laps ≠ [] ∧
      (SessionComparison.progressPairs wSession).find?
        (fun p => decide (|p.2.2 - (1/3)| < 1/10000)) = none ∧
      ∃ li di pr,
        SessionComparison.findClosestProgressPoint wSession (1/3) (1/100) =
          some (li, di) ∧
        (li, di, pr) ∈ SessionComparison.progressPairs wSession ∧
        ∀ p ∈ SessionComparison.progressPairs wSession,
          |pr - (1/3)| ≤ |p.2.2 - (1/3)|) :=
  have hlaps : wSession.laps ≠ [] := by simp [wSession, mkSession]
  have hne : ∀ lap ∈ wSession.laps, lap.dataPoints ≠ [] := by
    with_unfolding_all decide
  have hfind0 : (SessionComparison.progressPairs wSession).find?
      (fun p => decide (|p.2.2 - 0| < 1/10000)) = some (0, 0, 0) := by
    with_unfolding_all decide
  have hnone : (SessionComparison.progressPairs wSession).find?
      (fun p => decide (|p.2.2 - (1/3)| < 1/10000)) = none := by
    with_unfolding_all decide
  ⟨claim6_closest_match.1 wSession 0 (1/100) 42,
   ⟨hfind0, claim6_closest_match.2.1 wSession 0 (1/100) (0, 0, 0) hfind0⟩,
   ⟨hlaps, hnone, claim6_closest_match.2.2 wSession (1/3) (1/100) hlaps hne hnone⟩⟩

end VBO

namespace VBO
namespace SessionComparison

/-- Within one lap, `normalizedProgress` is monotone in the sample
index. -/
lemma progressFormula_mono_within (T li len : ℕ) {d d' : ℕ} (hdd : d ≤ d') :
    progressFormula T li len d ≤ progressFormula T li len d' := by
  unfold progressFormula
  dsimp only
  by_cases hT : T > 0
  · rw [if_pos hT, if_pos hT]
    have hTQ : (0:ℚ) < (T:ℚ) := by exact_mod_cast hT
    apply (div_le_div_iff_of_pos_right hTQ).mpr
    apply add_le_add_left
    by_cases hlen : len > 1
    · rw [if_pos hlen, if_pos hlen]
      have hl : (0:ℚ) < (len:ℚ) - 1 := by
        have : (1:ℚ) < (len:ℚ) := by exact_mod_cast hlen
        linarith
      exact (div_le_div_iff_of_pos_right hl).mpr (by exact_mod_cast hdd)
    · rw [if_neg hlen, if_neg hlen]
  · rw [if_neg hT, if_neg hT]

/-- Crossing into the start of the next lap never decreases
`normalizedProgress`. -/
lemma progressFormula_le_next (T li len : ℕ) {d : ℕ} (hd : d < len) (len' : ℕ) :
    progressFormula T li len d ≤ progressFormula T (li + 1) len' 0 := by
  unfold progressFormula
  dsimp only
  by_cases hT : T > 0
  · rw [if_pos hT, if_pos hT]
    have hTQ : (0:ℚ) < (T:ℚ) := by exact_mod_cast hT
    apply (div_le_div_iff_of_pos_right hTQ).mpr
    have h1 : (if len > 1 then ((d:ℕ):ℚ) / ((len:ℚ) - 1) else 0) ≤ 1 := by
      by_cases hlen : len > 1
      · rw [if_pos hlen]
        have hl : (0:ℚ) < (len:ℚ) - 1 := by
          have : (1:ℚ) < (len:ℚ) := by exact_mod_cast hlen
          linarith
        rw [div_le_one hl]
        have hd1 : (d:ℚ) + 1 ≤ (len:ℚ) := by exact_mod_cast Nat.succ_le_of_lt hd
        linarith
      · rw [if_neg hlen]
        norm_num
    have h2 : (if len' > 1 then (((0:ℕ)):ℚ) / ((len':ℚ) - 1) else 0) = 0 := by
      by_cases hlen' : len' > 1
      · rw [if_pos hlen']
        simp
      · rw [if_neg hlen']
    rw [h2]
    push_cast
    linarith
  · rw [if_neg hT, if_neg hT]

/-- Stepping the main cursor with `advanceLoop` preserves index
validity and never decreases `normalizedProgress`. -/
lemma advanceLoop_mono (laps : List VBOLap)
    (hlne : ∀ lap ∈ laps, lap.dataPoints ≠ []) :
    ∀ (steps li di : ℕ) (lap : VBOLap),
      laps[li]? = some lap → di < lap.dataPoints.length →
      ∃ li' di' lap', advanceLoop laps steps (li, di) = (li', di') ∧
        laps[li']? = some lap' ∧ di' < lap'.dataPoints.length ∧
        progressFormula laps.length li lap.dataPoints.length di ≤
          progressFormula laps.length li' lap'.dataPoints.length di' := by
  intro steps
  induction steps with
  | zero =>
    intro li di lap h1 h2
    exact ⟨li, di, lap, rfl, h1, h2, le_refl _⟩
  | succ n ih =>
    intro li di lap h1 h2
    have hstep0 : advanceLoop laps (n+1) (li, di) =
        (if di + 1 ≥ lap.dataPoints.length then
          if li + 1 ≥ laps.length then
            match laps[laps.length - 1]? with
            | some lastLap => (laps.length - 1, lastLap.dataPoints.length - 1)
            | none => (laps.length - 1, di + 1)
          else advanceLoop laps n (li + 1, 0)
        else advanceLoop laps n (li, di + 1)) := by
      conv_lhs => rw [advanceLoop]
      rw [h1]
    rw [hstep0]
    by_cases hb : di + 1 ≥ lap.dataPoints.length
    · rw [if_pos hb]
      by_cases hl : li + 1 ≥ laps.length
      · rw [if_pos hl]
        obtain ⟨hliv, hgeq⟩ := List.getElem?_eq_some_iff.mp h1
        have hli : li = laps.length - 1 := by omega
        have hlast : laps[laps.length - 1]? = some lap := by
          rw [← hli]
          exact h1
        rw [hlast]
        have hmem : lap ∈ laps := hgeq ▸ List.getElem_mem hliv
        have hpos : 0 < lap.dataPoints.length := List.length_pos.mpr (hlne lap hmem)
        refine ⟨laps.length - 1, lap.dataPoints.length - 1, lap, rfl, hlast, by omega, ?_⟩
        rw [← hli]
        exact progressFormula_mono_within laps.length li lap.dataPoints.length (by omega)
      · rw [if_neg hl]
        have hlt1 : li + 1 < laps.length := by omega
        have hlap' : laps[li+1]? = some laps[li+1] := List.getElem?_eq_getElem hlt1
        have hmem' : laps[li+1] ∈ laps := List.getElem_mem hlt1
        have hlen' : 0 < (laps[li+1]).dataPoints.length :=
          List.length_pos.mpr (hlne _ hmem')
        obtain ⟨li', di', lap', heq, hg, hd, hmono⟩ := ih (li+1) 0 laps[li+1] hlap' hlen'
        exact ⟨li', di', lap', heq, hg, hd,
          le_trans (progressFormula_le_next laps.length li lap.dataPoints.length h2 _) hmono⟩
    · rw [if_neg hb]
      have h2' : di + 1 < lap.dataPoints.length := by omega
      obtain ⟨li', di', lap', heq, hg, hd, hmono⟩ := ih li (di+1) lap h1 h2'
      exact ⟨li', di', lap', heq, hg, hd,
        le_trans (progressFormula_mono_within laps.length li lap.dataPoints.length
          (Nat.le_succ di)) hmono⟩

/-- `calculateNormalizedPosition` succeeds on in-range indices, with the
stated progress value and sample. -/
lemma calcNormPos_ok (s : VBOSession) (li di : ℕ) (lap : VBOLap)
    (h1 : s.laps[li]? = some lap) (h2 : di < lap.dataPoints.length) :
    ∃ pos, calculateNormalizedPosition s li di = Except.ok pos ∧
      pos.normalizedProgress = progressFormula s.laps.length li lap.dataPoints.length di ∧
      lap.dataPoints[di]? = some pos.dataPoint := by
  have h3 : lap.dataPoints[di]? = some (lap.dataPoints.get ⟨di, h2⟩) := by
    rw [List.getElem?_eq_getElem h2]
    rfl
  unfold calculateNormalizedPosition
  simp only [h1]
  simp only [h3]
  refine ⟨_, rfl, ?_, ?_⟩
  · unfold progressFormula
    rfl
  · rfl

/-- A successful `calculateNormalizedPosition` forces in-range indices
and the stated progress value. -/
lemma calcNormPos_ok_inv (s : VBOSession) (li di : ℕ) (pos : NormalizedPosition)
    (h : calculateNormalizedPosition s li di = Except.ok pos) :
    ∃ lap, s.laps[li]? = some lap ∧ di < lap.dataPoints.length ∧
      pos.normalizedProgress = progressFormula s.laps.length li lap.dataPoints.length di := by
  unfold calculateNormalizedPosition at h
  split at h
  · exact Except.noConfusion h
  · rename_i lap heq
    split at h
    · exact Except.noConfusion h
    · rename_i dp heq2
      dsimp only at h
      injection h with h'
      refine ⟨lap, heq, (List.getElem?_eq_some_iff.mp heq2).1, ?_⟩
      rw [← h']
      unfold progressFormula
      rfl

/-- Every scanned `(lap, sample)` pair addresses an existing sample. -/
lemma progressPairs_valid (session : VBOSession) (li di : ℕ) (pr : ℚ)
    (hp : (li, di, pr) ∈ progressPairs session) :
    ∃ lap, session.laps[li]? = some lap ∧ di < lap.dataPoints.length := by
  unfold progressPairs at hp
  obtain ⟨il, hmem, hmap⟩ := List.mem_flatMap.mp hp
  obtain ⟨i, lap⟩ := il
  obtain ⟨j, hj, heqp⟩ := List.mem_map.mp hmap
  simp only [Prod.mk.injEq] at heqp
  obtain ⟨hi, hj2, -⟩ := heqp
  subst hi
  subst hj2
  exact ⟨lap, List.mk_mem_enum_iff_getElem?.mp hmem, List.mem_range.mp hj⟩

/-- On a session with laps and no empty lap, the closest-match search
returns a pair taken from the scanned pair list. -/
lemma findClosest_mem (session : VBOSession) (t tol : ℚ)
    (hlaps : session.laps ≠ []) (hne : ∀ lap ∈ session.laps, lap.dataPoints ≠ []) :
    ∃ li di pr, findClosestProgressPoint session t tol = some (li, di) ∧
      (li, di, pr) ∈ progressPairs session := by
  cases hfind : (progressPairs session).find? (fun p => decide (|p.2.2 - t| < 1/10000)) with
  | some q =>
    obtain ⟨li, pi, pr⟩ := q
    refine ⟨li, pi, pr, ?_, List.mem_of_find?_eq_some hfind⟩
    rw [findClosest_eq_best session t tol,
      findLoop_first_low t (progressPairs session) (li, pi, pr) hfind (0, 0, ⊤) le_top]
  | none =>
    have hnolow : ∀ p ∈ progressPairs session, ¬ |p.2.2 - t| < 1/10000 := by
      intro p hp
      have := List.find?_eq_none.mp hfind p hp
      simpa using this
    obtain ⟨bl, bp, bd, heq, hatt, hle, hall⟩ :=
      findLoop_no_low t (progressPairs session) (0, 0, ⊤) hnolow
    obtain ⟨l0, rest, hsl⟩ := List.exists_cons_of_ne_nil hlaps
    have hp0 : (0, 0, progressFormula session.laps.length 0 l0.dataPoints.length 0) ∈
        progressPairs session := by
      unfold progressPairs
      refine List.mem_flatMap.mpr ⟨(0, l0), ?_, ?_⟩
      · have henum : (l0 :: rest).enum = (0, l0) :: rest.enumFrom 1 := rfl
        rw [hsl, henum]
        exact List.mem_cons_self _ _
      · refine List.mem_map.mpr ⟨0, List.mem_range.mpr ?_, rfl⟩
        exact List.length_pos.mpr (hne l0 (by rw [hsl]; exact List.mem_cons_self _ _))
    rcases hatt with hinit | ⟨pr, hmem, hbd⟩
    · exfalso
      simp only [Prod.mk.injEq] at hinit
      have htop := hall _ hp0
      rw [hinit.2.2] at htop
      simp at htop
    · refine ⟨bl, bp, pr, ?_, hmem⟩
      rw [findClosest_eq_best session t tol, heq]

/-- `syncOne` once the search result is fixed. -/
lemma syncOne_eq_some (t tol : ℚ) (session : VBOSession) (old : SessionState)
    (li di : ℕ) (h : findClosestProgressPoint session t tol = some (li, di)) :
    syncOne t tol session old =
      match calculateNormalizedPosition session li di with
      | Except.error e => Except.error e
      | Except.ok position => Except.ok ⟨li, di, position⟩ := by
  unfold syncOne
  rw [h]

/-- Re-positioning one valid comparator always succeeds. -/
lemma syncOne_ok (t tol : ℚ) (session : VBOSession) (old : SessionState)
    (hv : SessionValid session) :
    ∃ st, syncOne t tol session old = Except.ok st := by
  obtain ⟨li, di, pr, hfc, hmem⟩ := findClosest_mem session t tol hv.1 hv.2
  obtain ⟨lap, h1, h2⟩ := progressPairs_valid session li di pr hmem
  obtain ⟨pos, hpos, -, -⟩ := calcNormPos_ok session li di lap h1 h2
  refine ⟨⟨li, di, pos⟩, ?_⟩
  rw [syncOne_eq_some t tol session old li di hfc, hpos]

/-- Folding `syncOne` over valid comparators always succeeds. -/
lemma syncStates_ok (t tol : ℚ) :
    ∀ (pairs : List (VBOSession × SessionState)),
      (∀ p ∈ pairs, SessionValid p.1) →
      ∃ sts, syncStates t tol pairs = Except.ok sts := by
  intro pairs
  induction pairs with
  | nil => exact fun _ => ⟨[], rfl⟩
  | cons p rest ih =>
    intro h
    obtain ⟨s, old⟩ := p
    obtain ⟨st, hst⟩ := syncOne_ok t tol s old (h (s, old) (List.mem_cons_self _ _))
    obtain ⟨sts, hsts⟩ := ih (fun p hp => h p (List.mem_cons_of_mem _ hp))
    refine ⟨st :: sts, ?_⟩
    conv_lhs => rw [syncStates]
    rw [hst, hsts]

/-- Synchronizing all valid comparators succeeds and leaves the main
session and main state untouched. -/
lemma syncComparators_ok (c : SessionComparison)
    (hv : ∀ cs ∈ c.comparatorSessions, SessionValid cs) :
    ∃ c', syncComparatorsToMain c = Except.ok c' ∧ c'.mainSession = c.mainSession ∧
      c'.mainState = c.mainState := by
  have hz : ∀ p ∈ c.comparatorSessions.zip c.compStates, SessionValid p.1 := by
    intro p hp
    exact hv p.1 (List.of_mem_zip hp).1
  obtain ⟨sts, hsts⟩ := syncStates_ok _ _ _ hz
  refine ⟨{ c with compStates := sts }, ?_, rfl, rfl⟩
  unfold syncComparatorsToMain
  rw [hsts]

/-- `setMainPosition` once the bounds checks pass. -/
lemma setMainPosition_eq (c : SessionComparison) (li di : ℕ) (lap : VBOLap)
    (h1 : c.mainSession.laps[li]? = some lap) (h2 : di < lap.dataPoints.length) :
    setMainPosition c li di =
      match calculateNormalizedPosition c.mainSession li di with
      | Except.error e => Except.error e
      | Except.ok position =>
        syncComparatorsToMain { c with mainState := ⟨li, di, position⟩ } := by
  have hlt : li < c.mainSession.laps.length := (List.getElem?_eq_some_iff.mp h1).1
  unfold setMainPosition
  rw [if_neg (not_le.mpr hlt)]
  rw [h1]
  dsimp only
  rw [if_neg (not_le.mpr h2)]

/-- `setMainPosition` on a valid target with valid comparators: it
succeeds and stores exactly the requested indices and sample. -/
lemma setMainPosition_ok (c : SessionComparison) (li di : ℕ) (lap : VBOLap)
    (h1 : c.mainSession.laps[li]? = some lap) (h2 : di < lap.dataPoints.length)
    (hv : ∀ cs ∈ c.comparatorSessions, SessionValid cs) :
    ∃ c', setMainPosition c li di = Except.ok c' ∧
      c'.mainSession = c.mainSession ∧
      c'.mainState.currentLapIndex = li ∧
      c'.mainState.currentDataPointIndex = di ∧
      getMainProgress c' =
        progressFormula c.mainSession.laps.length li lap.dataPoints.length di ∧
      lap.dataPoints[di]? = some c'.mainState.position.dataPoint := by
  obtain ⟨pos, hpos, hnp, hdp⟩ := calcNormPos_ok c.mainSession li di lap h1 h2
  obtain ⟨c', hc', hms, hmst⟩ := syncComparators_ok { c with mainState := ⟨li, di, pos⟩ } hv
  refine ⟨c', ?_, hms, ?_, ?_, ?_, ?_⟩
  · rw [setMainPosition_eq c li di lap h1 h2, hpos]
    exact hc'
  · rw [hmst]
  · rw [hmst]
  · unfold getMainProgress
    rw [hmst]
    exact hnp
  · rw [hmst]
    exact hdp

/-- `setMainProgress 0` lands on the very first sample, with
normalized progress exactly 0. -/
lemma setMainProgress_zero (c : SessionComparison) (l0 : VBOLap)
    (h0 : c.mainSession.laps[0]? = some l0) (hl0 : l0.dataPoints ≠ [])
    (hv : ∀ cs ∈ c.comparatorSessions, SessionValid cs) :
    ∃ c0, setMainProgress c 0 = Except.ok c0 ∧ getMainProgress c0 = 0 := by
  have hT : 0 < c.mainSession.laps.length := (List.getElem?_eq_some_iff.mp h0).1
  have hfl : ((Rat.floor ((0:ℚ) * (c.mainSession.laps.length : ℚ))).toNat) = 0 := by
    rw [zero_mul]
    with_unfolding_all decide
  unfold setMainProgress
  rw [if_neg (by norm_num)]
  dsimp only
  rw [if_neg (show ¬((0:ℚ) = 1) by norm_num)]
  rw [hfl]
  rw [h0]
  dsimp only
  have hz : ((0:ℚ) * (c.mainSession.laps.length : ℚ) - (((0:ℕ)):ℚ)) *
      ((l0.dataPoints.length : ℚ) - 1) = 0 := by
    push_cast
    ring
  rw [hz]
  have hjr : ((jsRound (0:ℚ)).toNat) = 0 := by
    with_unfolding_all decide
  rw [hjr]
  obtain ⟨c0, hok, -, -, -, hgp, -⟩ :=
    setMainPosition_ok c 0 0 l0 h0 (List.length_pos.mpr hl0) hv
  refine ⟨c0, hok, ?_⟩
  rw [hgp]
  unfold progressFormula
  dsimp only
  rw [if_pos hT]
  split_ifs with h
  · simp
  · simp

/-- `setMainProgress 1` lands on the last sample of the last lap. -/
lemma setMainProgress_one (c : SessionComparison) (lastLap : VBOLap)
    (hlast : c.mainSession.laps.getLast? = some lastLap) (hll : lastLap.dataPoints ≠ [])
    (hv : ∀ cs ∈ c.comparatorSessions, SessionValid cs) :
    ∃ c1, setMainProgress c 1 = Except.ok c1 ∧
      c1.mainState.currentLapIndex = c.mainSession.laps.length - 1 ∧
      c1.mainState.currentDataPointIndex = lastLap.dataPoints.length - 1 ∧
      lastLap.dataPoints.getLast? = some c1.mainState.position.dataPoint := by
  have hidx : c.mainSession.laps[c.mainSession.laps.length - 1]? = some lastLap := by
    rw [← List.getLast?_eq_getElem? _]
    exact hlast
  have hdi : lastLap.dataPoints.length - 1 < lastLap.dataPoints.length := by
    have := List.length_pos.mpr hll
    omega
  obtain ⟨c1, hok, hms, hli, hdip, hgp, hdp⟩ :=
    setMainPosition_ok c (c.mainSession.laps.length - 1) (lastLap.dataPoints.length - 1)
      lastLap hidx hdi hv
  refine ⟨c1, ?_, hli, hdip, ?_⟩
  · unfold setMainProgress
    rw [if_neg (by norm_num)]
    dsimp only
    rw [if_pos rfl]
    rw [hidx]
    dsimp only
    exact hok
  · rw [List.getLast?_eq_getElem? _]
    exact hdp

end SessionComparison

/-- C7: on a valid comparison, advancing the main cursor by any number
of steps succeeds and never decreases the main `sessionProgress`;
`setMainProgress 0` succeeds and `getMainProgress` then returns 0; and
`setMainProgress 1` succeeds and positions the main state at the last
sample of the last lap. -/
theorem claim7_progress_navigation :
    ∀ c : SessionComparison, SessionComparison.Valid c →
      (∀ steps : ℕ, ∃ c', SessionComparison.advanceMain c steps = Except.ok c' ∧
        SessionComparison.getMainProgress c ≤ SessionComparison.getMainProgress c') ∧
      (∃ c0, SessionComparison.setMainProgress c 0 = Except.ok c0 ∧
        SessionComparison.getMainProgress c0 = 0) ∧
      (∃ c1 lastLap, c.mainSession.laps.getLast? = some lastLap ∧
        SessionComparison.setMainProgress c 1 = Except.ok c1 ∧
        c1.mainState.currentLapIndex = c.mainSession.laps.length - 1 ∧
        c1.mainState.currentDataPointIndex = lastLap.dataPoints.length - 1 ∧
        lastLap.dataPoints.getLast? = some c1.mainState.position.dataPoint) := by
  intro c hvalid
  obtain ⟨⟨hlne, hall⟩, hcv, hsv⟩ := hvalid
  refine ⟨?_, ?_, ?_⟩
  · intro steps
    obtain ⟨lap0, hg0, hd0, hnp0⟩ :=
      SessionComparison.calcNormPos_ok_inv c.mainSession c.mainState.currentLapIndex
        c.mainState.currentDataPointIndex c.mainState.position hsv
    obtain ⟨li', di', lap', heq, hg', hd', hmono⟩ :=
      SessionComparison.advanceLoop_mono c.mainSession.laps hall steps
        c.mainState.currentLapIndex c.mainState.currentDataPointIndex lap0 hg0 hd0
    obtain ⟨c', hok, -, -, -, hgp', -⟩ :=
      SessionComparison.setMainPosition_ok c li' di' lap' hg' hd' hcv
    refine ⟨c', ?_, ?_⟩
    · unfold SessionComparison.advanceMain
      dsimp only
      rw [heq]
      exact hok
    · rw [hgp']
      unfold SessionComparison.getMainProgress
      rw [hnp0]
      exact hmono
  · obtain ⟨l0, rest, hsl⟩ := List.exists_cons_of_ne_nil hlne
    have h0 : c.mainSession.laps[0]? = some l0 := by
      rw [hsl]
      exact List.getElem?_cons_zero
    exact SessionComparison.setMainProgress_zero c l0 h0
      (hall l0 (by rw [hsl]; exact List.mem_cons_self _ _)) hcv
  · obtain ⟨lastLap, hlast⟩ := Option.isSome_iff_exists.mp
      (List.getLast?_isSome.mpr hlne)
    have hmem : lastLap ∈ c.mainSession.laps := List.mem_of_mem_getLast? hlast
    obtain ⟨c1, hok, hli, hdi, hdp⟩ :=
      SessionComparison.setMainProgress_one c lastLap hlast (hall lastLap hmem) hcv
    exact ⟨c1, lastLap, hlast, hok, hli, hdi, hdp⟩

/-- Witness for `claim7_progress_navigation` on the two-lap comparison
fixture. -/
theorem claim7_witness :
    SessionComparison.Valid wComparison ∧
      ((∀ steps : ℕ, ∃ c', SessionComparison.advanceMain wComparison steps = Except.ok c' ∧
        SessionComparison.getMainProgress wComparison ≤ SessionComparison.getMainProgress c') ∧
      (∃ c0, SessionComparison.setMainProgress wComparison 0 = Except.ok c0 ∧
        SessionComparison.getMainProgress c0 = 0) ∧
      (∃ c1 lastLap, wComparison.mainSession.laps.getLast? = some lastLap ∧
        SessionComparison.setMainProgress wComparison 1 = Except.ok c1 ∧
        c1.mainState.currentLapIndex = wComparison.mainSession.laps.length - 1 ∧
        c1.mainState.currentDataPointIndex = lastLap.dataPoints.length - 1 ∧
        lastLap.dataPoints.getLast? = some c1.mainState.position.dataPoint)) :=
  have hvalid : SessionComparison.Valid wComparison :=
    ⟨⟨by simp [wComparison, wSession, mkSession], by with_unfolding_all decide⟩,
     by intro cs h; exact absurd h (List.not_mem_nil cs),
     by
       show SessionComparison.calculateNormalizedPosition wComparison.mainSession
           wComparison.mainState.currentLapIndex wComparison.mainState.currentDataPointIndex =
         Except.ok wComparison.mainState.position
       with_unfolding_all rfl⟩
  ⟨hvalid, claim7_progress_navigation wComparison hvalid⟩

end VBO
